import Mathlib

/-!
Verification development for the JSON-file REST API in server.js
(items / tasks / comments / userCards with ajv schema validation,
token-based ownership, pagination and import).

The source file concatenates two variants of the server.  Both variants
share readDb/writeDb/paginate and the comment routes; the first variant
additionally has the generic items CRUD, the tasks alias and POST /import;
the second variant has formatAjvErrors, the userCard routes and isAdmin.
All of them are embedded below.  JSON values are modelled by the
inductive JsonVal (numbers restricted to integers, which covers every
value the schemas constrain); JS objects are association lists with the
usual last-write-wins merge semantics; request headers, bodies, query
parameters, the clock and the id generator are explicit arguments.
-/

/-- JSON value, as stored in db.json and exchanged with clients.  Numbers
are modelled as integers: every numeric constraint in the schemas
(rating, priority) is an integer constraint. -/
inductive JsonVal where
  | null
  | bool (b : Bool)
  | int (n : Int)
  | str (s : String)
  | arr (elems : List JsonVal)
  | obj (fields : List (String × JsonVal))

/-- A JS object: association list from field name to value. -/
abbrev Obj := List (String × JsonVal)

/-- Field access o[k]: first binding wins, none models undefined. -/
def jget (o : Obj) (k : String) : Option JsonVal := List.lookup k o

/-- Does the object have field k (with any value)? -/
def jhas (o : Obj) (k : String) : Bool := (jget o k).isSome

/-- Spread merge of two objects, as in the JS literal with spreads: keys of
b override keys of a, other keys of a survive. -/
def jmerge (a b : Obj) : Obj := a.filter (fun kv => (jget b kv.1).isNone) ++ b

/-- Remove a field; models assigning undefined to a field and the later
JSON.stringify dropping it. -/
def jerase (o : Obj) (k : String) : Obj := o.filter (fun kv => kv.1 != k)

/-- JS truthiness of a defined value. -/
def JsonVal.truthy : JsonVal → Bool
  | .null => false
  | .bool b => b
  | .int n => n != 0
  | .str s => s != ""
  | .arr _ => true
  | .obj _ => true

/-- JS truthiness of a possibly-undefined value. -/
def optTruthy (v : Option JsonVal) : Bool :=
  match v with
  | none => false
  | some w => w.truthy

/-- Strict equality v === s against a string literal. -/
def strValIs (v : Option JsonVal) (s : String) : Bool :=
  match v with
  | some (JsonVal.str t) => t == s
  | _ => false

/-- Strict equality v === b against a boolean literal. -/
def boolValIs (v : Option JsonVal) (b : Bool) : Bool :=
  match v with
  | some (JsonVal.bool c) => c == b
  | _ => false

/-- Nullish coalescing v ?? null. -/
def nullCoalesce (v : Option JsonVal) : JsonVal :=
  match v with
  | none => .null
  | some .null => .null
  | some w => w

/-- Project the listed fields of an object, in order, dropping the ones
that are undefined (JSON.stringify drops fields whose value is
undefined, so a response literal listing an absent field omits it). -/
def pickKeys (o : Obj) (ks : List String) : Obj :=
  ks.filterMap (fun k => (jget o k).map (fun v => (k, v)))

/-- Split a character list at a separator character (helper). -/
def splitCharAux (sep : Char) : List Char → List Char → List (List Char)
  | [], acc => [acc.reverse]
  | c :: t, acc =>
    if c = sep then acc.reverse :: splitCharAux sep t []
    else splitCharAux sep t (c :: acc)

/-- Split a character list at a separator character. -/
def splitChar (sep : Char) (cs : List Char) : List (List Char) :=
  splitCharAux sep cs []

/-- Remove leading slashes, as the regex replace of formatAjvErrors does. -/
def dropSlashes (s : String) : String :=
  String.mk (s.data.dropWhile (fun c => c = '/'))

/-- ASCII lower-casing of one character. -/
def charLowerAscii (c : Char) : Char :=
  if 'A' ≤ c && c ≤ 'Z' then Char.ofNat (c.toNat + 32) else c

/-- ASCII lower-casing of a string (models toLowerCase on the ASCII range,
which is all the search filter semantics the claims rely on). -/
def lowerAscii (s : String) : String := String.mk (s.data.map charLowerAscii)

/-- Is the character a hexadecimal digit (either case)? -/
def isHexDigit (c : Char) : Bool :=
  (('0' ≤ c) && (c ≤ '9')) || (('a' ≤ c) && (c ≤ 'f')) || (('A' ≤ c) && (c ≤ 'F'))

/-- The uuid format of ajv-formats: an optional case-insensitive urn:uuid:
scheme followed by hex groups of sizes 8-4-4-4-12. -/
def isUuid (s : String) : Bool :=
  let cs := s.data.map charLowerAscii
  let core := if cs.take 9 = "urn:uuid:".data then cs.drop 9 else cs
  match splitChar '-' core with
  | [a, b, c, d, e] =>
    (a.length == 8) && (b.length == 4) && (c.length == 4) && (d.length == 4) &&
      (e.length == 12) && (a ++ b ++ c ++ d ++ e).all isHexDigit
  | _ => false

/-- Does the character list appear as a contiguous run at the front (helper
for substring containment)? -/
def runAtFront : List Char → List Char → Bool
  | [], _ => true
  | _ :: _, [] => false
  | a :: as, b :: bs => (a == b) && runAtFront as bs

/-- Substring containment needle-in-hay, as JS String.includes. -/
def strContainsAux (needle : List Char) : List Char → Bool
  | [] => needle.isEmpty
  | c :: t => runAtFront needle (c :: t) || strContainsAux needle t

/-- Substring containment needle-in-hay, as JS String.includes. -/
def strContains (hay needle : String) : Bool := strContainsAux needle.data hay.data

/-- Escape quote and backslash characters for jsonStringify. -/
def escapeJson : List Char → String
  | [] => ""
  | c :: t =>
    (if c = '"' then "\\\"" else if c = '\\' then "\\\\" else String.mk [c]) ++ escapeJson t

mutual

/-- JSON.stringify with default separators (escaping is modelled for the
quote and backslash only; the q filter of GET /items is the sole code
that looks at this text). -/
def jsonStringify : JsonVal → String
  | .null => "null"
  | .bool b => if b then "true" else "false"
  | .int n => toString n
  | .str s => "\"" ++ escapeJson s.data ++ "\""
  | .arr xs => "[" ++ jsonStringifyList xs ++ "]"
  | .obj fs => "\x7b" ++ jsonStringifyObj fs ++ "\x7d"
termination_by v => sizeOf v

/-- Comma-separated stringification of array elements. -/
def jsonStringifyList : List JsonVal → String
  | [] => ""
  | [x] => jsonStringify x
  | x :: y :: t => jsonStringify x ++ "," ++ jsonStringifyList (y :: t)
termination_by l => sizeOf l

/-- Comma-separated stringification of object fields. -/
def jsonStringifyObj : List (String × JsonVal) → String
  | [] => ""
  | [(k, v)] => "\"" ++ escapeJson k.data ++ "\":" ++ jsonStringify v
  | (k, v) :: y :: t =>
    "\"" ++ escapeJson k.data ++ "\":" ++ jsonStringify v ++ "," ++ jsonStringifyObj (y :: t)
termination_by l => sizeOf l

end

/-! Ajv error objects and the formatAjvErrors helper of the second
variant (server.js lines 465-477). -/

/-- The parts of an ajv error object that formatAjvErrors reads:
instancePath, keyword, message, and params.missingProperty. -/
structure AjvError where
  instancePath : String
  keyword : String
  message : String
  missingProperty : Option String
deriving DecidableEq

/-- The field, message, code triple served to clients. -/
structure FieldError where
  field : String
  message : String
  code : String
deriving DecidableEq

/-- Last segment of the slash-separated instance path. -/
def lastPathSeg (path : String) : String :=
  ((splitChar '/' path.data).map String.mk).getLastD ""

/-- Translation of one ajv error into a FieldError, as formatAjvErrors
does per element: strip leading slashes from instancePath, take the last
path segment, fall back to params.missingProperty and then to the literal
payload; message and keyword fall back when empty. -/
def formatAjvError (e : AjvError) : FieldError :=
  let path := dropSlashes e.instancePath
  let last := lastPathSeg path
  let field :=
    if last != "" then last
    else
      match e.missingProperty with
      | some m => if m != "" then m else "payload"
      | none => "payload"
  { field := field
    message := if e.message != "" then e.message else "Invalid value"
    code := if e.keyword != "" then e.keyword else "validation" }

/-- formatAjvErrors of server.js: map formatAjvError over the list. -/
def formatAjvErrors (errs : List AjvError) : List FieldError :=
  errs.map formatAjvError

/-! Schema validation.  The ajv instances are created with allErrors true,
so validation reports every violated constraint; validity is emptiness of
the error list.  The error generators below mirror the checks the three
payload schemas declare.  Messages follow the ajv wording (with the
quoted property name omitted from the required message). -/

/-- Required-property errors: one error, carrying params.missingProperty,
for each required field that is undefined. -/
def requiredCheck (o : Obj) (fs : List String) : List AjvError :=
  fs.filterMap (fun f =>
    if jhas o f then none
    else some ⟨"", "required", "must have required property " ++ f, some f⟩)

/-- additionalProperties false: one error per field outside the schema. -/
def additionalCheck (o : Obj) (allowed : List String) : List AjvError :=
  o.filterMap (fun kv =>
    if kv.1 ∈ allowed then none
    else some ⟨"", "additionalProperties", "must NOT have additional properties", none⟩)

/-- A const string field: if present it must equal the constant. -/
def constStrCheck (o : Obj) (f s : String) : List AjvError :=
  match jget o f with
  | none => []
  | some v => if strValIs (some v) s then [] else [⟨"/" ++ f, "const", "must be equal to constant", none⟩]

/-- A string field with a minimum length: if present it must be a string
of at least n characters. -/
def strMinLenCheck (o : Obj) (f : String) (n : Nat) : List AjvError :=
  match jget o f with
  | none => []
  | some (JsonVal.str s) =>
    if s.length < n then
      [⟨"/" ++ f, "minLength", "must NOT have fewer than " ++ toString n ++ " characters", none⟩]
    else []
  | some _ => [⟨"/" ++ f, "type", "must be string", none⟩]

/-- An integer field with an inclusive range: if present it must be an
integer between lo and hi. -/
def intRangeCheck (o : Obj) (f : String) (lo hi : Int) : List AjvError :=
  match jget o f with
  | none => []
  | some (JsonVal.int n) =>
    (if n < lo then [⟨"/" ++ f, "minimum", "must be >= " ++ toString lo, none⟩] else []) ++
      (if hi < n then [⟨"/" ++ f, "maximum", "must be <= " ++ toString hi, none⟩] else [])
  | some _ => [⟨"/" ++ f, "type", "must be integer", none⟩]

/-- A string field constrained to an enumeration. -/
def enumStrCheck (o : Obj) (f : String) (vals : List String) : List AjvError :=
  match jget o f with
  | none => []
  | some (JsonVal.str s) =>
    if s ∈ vals then [] else [⟨"/" ++ f, "enum", "must be equal to one of the allowed values", none⟩]
  | some _ => [⟨"/" ++ f, "type", "must be string", none⟩]

/-- A boolean field. -/
def boolCheck (o : Obj) (f : String) : List AjvError :=
  match jget o f with
  | none => []
  | some (JsonVal.bool _) => []
  | some _ => [⟨"/" ++ f, "type", "must be boolean", none⟩]

/-- A field that is a string or null (the anyOf of imageUrl; the branch
errors of anyOf are collapsed into the single anyOf error). -/
def nullableStrCheck (o : Obj) (f : String) : List AjvError :=
  match jget o f with
  | none => []
  | some (JsonVal.str _) => []
  | some JsonVal.null => []
  | some _ => [⟨"/" ++ f, "anyOf", "must match a schema in anyOf", none⟩]

/-- An array-of-strings field (tags). -/
def strArrayCheck (o : Obj) (f : String) : List AjvError :=
  match jget o f with
  | none => []
  | some (JsonVal.arr xs) =>
    xs.enum.filterMap (fun p =>
      match p.2 with
      | JsonVal.str _ => none
      | _ => some ⟨"/" ++ f ++ "/" ++ toString p.1, "type", "must be string", none⟩)
  | some _ => [⟨"/" ++ f, "type", "must be array", none⟩]

/-- Properties of the comment payload schema. -/
def commentProps : List String := ["kind", "imdbID", "name", "message", "rating", "authorToken"]

/-- Required properties of the comment payload schema. -/
def commentRequired : List String := ["kind", "imdbID", "name", "message", "authorToken"]

/-- All ajv errors of the comment payload schema (allErrors true). -/
def commentPayloadErrors (o : Obj) : List AjvError :=
  additionalCheck o commentProps ++ requiredCheck o commentRequired ++
    constStrCheck o "kind" "comment" ++
    strMinLenCheck o "imdbID" 2 ++ strMinLenCheck o "name" 2 ++ strMinLenCheck o "message" 2 ++
    intRangeCheck o "rating" 1 5 ++ strMinLenCheck o "authorToken" 16

/-- The compiled comment payload validator: valid iff no errors. -/
def validateCommentPayload (o : Obj) : Bool := commentPayloadErrors o |>.isEmpty

/-- Properties of the userCard payload schema. -/
def cardProps : List String :=
  ["kind", "name", "movieTitle", "title", "description", "imageUrl", "isPublic", "authorToken"]

/-- Required properties of the userCard payload schema. -/
def cardRequired : List String := ["kind", "name", "movieTitle", "title", "description", "authorToken"]

/-- All ajv errors of the userCard payload schema (allErrors true). -/
def cardPayloadErrors (o : Obj) : List AjvError :=
  additionalCheck o cardProps ++ requiredCheck o cardRequired ++
    constStrCheck o "kind" "userCard" ++
    strMinLenCheck o "name" 2 ++ strMinLenCheck o "movieTitle" 1 ++
    strMinLenCheck o "title" 1 ++ strMinLenCheck o "description" 2 ++
    nullableStrCheck o "imageUrl" ++ boolCheck o "isPublic" ++
    strMinLenCheck o "authorToken" 16

/-- The compiled userCard payload validator: valid iff no errors. -/
def validateCardPayload (o : Obj) : Bool := cardPayloadErrors o |>.isEmpty

/-- Properties of the task payload schema. -/
def taskProps : List String := ["kind", "title", "status", "priority", "dueDate", "tags", "notes"]

/-- Required properties of the task payload schema. -/
def taskRequired : List String := ["kind", "title", "status"]

/-- All ajv errors of the task payload schema (allErrors true). -/
def taskPayloadErrors (o : Obj) : List AjvError :=
  additionalCheck o taskProps ++ requiredCheck o taskRequired ++
    constStrCheck o "kind" "task" ++
    strMinLenCheck o "title" 1 ++
    enumStrCheck o "status" ["todo", "in_progress", "done", "blocked"] ++
    intRangeCheck o "priority" 1 5 ++
    strMinLenCheck o "dueDate" 0 ++ strArrayCheck o "tags" ++ strMinLenCheck o "notes" 0

/-- The compiled task payload validator: valid iff no errors. -/
def validateTaskPayload (o : Obj) : Bool := taskPayloadErrors o |>.isEmpty

/-- The generic item envelope schema: exactly the four fields id (uuid
string), createdAt and updatedAt (strings) and payload (any object),
additionalProperties false. -/
def validateItem (v : JsonVal) : Bool :=
  match v with
  | .obj o =>
    (o.all (fun kv => kv.1 ∈ (["id", "createdAt", "updatedAt", "payload"] : List String))) &&
      (match jget o "id" with
       | some (JsonVal.str s) => isUuid s
       | _ => false) &&
      (match jget o "createdAt" with
       | some (JsonVal.str _) => true
       | _ => false) &&
      (match jget o "updatedAt" with
       | some (JsonVal.str _) => true
       | _ => false) &&
      (match jget o "payload" with
       | some (JsonVal.obj _) => true
       | _ => false)
  | _ => false

/-! The store. -/

/-- A stored item: envelope of id, two timestamps and the payload object.
Items read from db.json after envelope validation always have this
shape. -/
structure Item where
  id : String
  createdAt : String
  updatedAt : String
  payload : Obj

/-- The JSON view of a stored item, as serialized to db.json and to
responses of the generic item routes. -/
def Item.toJson (i : Item) : JsonVal :=
  .obj [("id", .str i.id), ("createdAt", .str i.createdAt),
        ("updatedAt", .str i.updatedAt), ("payload", .obj i.payload)]

/-- The database document: the items array plus the meta object. -/
structure Db where
  items : List Item
  meta : Obj

/-- Does the item payload carry the given kind discriminator
(payload.kind === k)? -/
def kindIs (i : Item) (k : String) : Bool := strValIs (jget i.payload "kind") k

/-- One page of a listing response: data slice, echoed page and limit,
and the total size of the filtered collection. -/
structure Page (α : Type) where
  data : List α
  page : Int
  limit : Int
  total : Nat

/-- JS x || d for a parsed numeric query parameter: none models NaN or a
missing value, and 0 is falsy, so both fall back to the default. -/
def jsOr (v : Option Int) (d : Int) : Int :=
  match v with
  | none => d
  | some n => if n = 0 then d else n

/-- paginate of server.js (lines 52-57 and 444-449): page is clamped to
at least 1 with fallback 1, limit is clamped to [1, 200] with fallback
50, data is the slice from (page-1)*limit of length at most limit, and
total is the length of the whole array.  The page and limit arguments
are the parsed query parameters (none models NaN). -/
def paginate {α : Type} (arr : List α) (page limit : Option Int) : Page α :=
  let p := max 1 (jsOr page 1)
  let l := min 200 (max 1 (jsOr limit 50))
  let start := ((p - 1) * l).toNat
  { data := (arr.drop start).take l.toNat, page := p, limit := l, total := arr.length }

/-- Chronological key of an ISO-8601 timestamp: toISOString output
compares chronologically exactly as it compares lexicographically, which
this character fold encodes order-faithfully. -/
def dateVal (s : String) : Int :=
  s.data.foldl (fun a c => a * 1114112 + c.toNat) 0

/-- Sort items most-recent-first by the given timestamp field, as the
sort with comparator new Date(b) - new Date(a). -/
def sortByDateDesc (key : Item → String) (l : List Item) : List Item :=
  List.insertionSort (fun a b => dateVal (key b) ≤ dateVal (key a)) l

/-- isAdmin of server.js (lines 526-529): the ADMIN_TOKEN environment
variable is set and non-empty and the x-admin-token header equals it. -/
def isAdmin (adminEnv : Option String) (adminHeader : String) : Bool :=
  match adminEnv with
  | none => false
  | some t => (t != "") && (adminHeader == t)

/-- findIndex followed by indexing: the least index whose element
satisfies the test, together with that element. -/
def findWithIdx (p : Item → Bool) : List Item → Option (Nat × Item)
  | [] => none
  | x :: xs =>
    if p x then some (0, x)
    else (findWithIdx p xs).map (fun r => (r.1 + 1, r.2))

/-- Test of the generic item routes: id match only. -/
def itemIdPred (id : String) (i : Item) : Bool := i.id == id

/-- Test of the comment routes: id match and comment kind. -/
def commentPred (id : String) (i : Item) : Bool := (i.id == id) && kindIs i "comment"

/-- Test of the card routes: id match and userCard kind. -/
def cardPred (id : String) (i : Item) : Bool := (i.id == id) && kindIs i "userCard"

/-- Test of the task routes: id match and task kind. -/
def taskPred (id : String) (i : Item) : Bool := (i.id == id) && kindIs i "task"

/-- A handler outcome: HTTP status, JSON response body, and the store
after the request (equal to the store before it when nothing was
written). -/
structure HResp where
  status : Nat
  body : JsonVal
  db : Db

/-- Response body {error: msg}. -/
def errorBody (msg : String) : JsonVal := .obj [("error", .str msg)]

/-- The 401 body of the comment and card routes of the second variant. -/
def authErrorBody (msg : String) : JsonVal :=
  .obj [("error", .str msg),
        ("errors", .arr [.obj [("field", .str "token"),
                               ("message", .str "Authorization required"),
                               ("code", .str "auth")]])]

/-- JSON view of a FieldError. -/
def fieldErrorToJson (e : FieldError) : JsonVal :=
  .obj [("field", .str e.field), ("message", .str e.message), ("code", .str e.code)]

/-- The 400 body {error: "Validation failed", errors: formatAjvErrors(...)}
of the second variant. -/
def validationErrorBody (errs : List AjvError) : JsonVal :=
  .obj [("error", .str "Validation failed"),
        ("errors", .arr ((formatAjvErrors errs).map fieldErrorToJson))]

/-! Route handlers.  Time stamps (now) and generated ids (newId) are
explicit arguments; request headers, path parameters, query parameters
and bodies likewise.  Handler results carry the store after the request.
The generic items CRUD, tasks and import handlers follow the first
variant (lines 117-247); the comment and card handlers follow the second
variant (lines 537-866), whose comment logic coincides with the first
variant except for the formatted error bodies. -/

/-- GET /items (lines 131-141): optional case-insensitive substring
filter over the stringified payload, sort by updatedAt descending,
paginate.  Data entries are the stored items themselves. -/
def getItems (db : Db) (q : Option String) (page limit : Option Int) : Page Item :=
  let items :=
    match q with
    | some needle =>
      if needle = "" then db.items
      else db.items.filter (fun i =>
        strContains (lowerAscii (jsonStringify (.obj i.payload))) (lowerAscii needle))
    | none => db.items
  paginate (sortByDateDesc (fun i => i.updatedAt) items) page limit

/-- GET /items/:id (lines 143-148): the raw stored item, payload
included verbatim, or 404. -/
def getItemById (db : Db) (id : String) : HResp :=
  match findWithIdx (itemIdPred id) db.items with
  | none => ⟨404, errorBody "Not found", db⟩
  | some (_, i) => ⟨200, i.toJson, db⟩

/-- POST /items (lines 150-157): wrap the body as the payload of a fresh
envelope, validate the envelope, append. -/
def postItem (db : Db) (body : Obj) (now newId : String) : HResp :=
  let item : Item := ⟨newId, now, now, body⟩
  if validateItem item.toJson then
    ⟨201, item.toJson, ⟨db.items ++ [item], db.meta⟩⟩
  else ⟨400, errorBody "Validation failed", db⟩

/-- PUT /items/:id (lines 159-168): replace the payload wholesale,
keeping id and createdAt, refreshing updatedAt; envelope validation
only. -/
def putItem (db : Db) (id : String) (body : Obj) (now : String) : HResp :=
  match findWithIdx (itemIdPred id) db.items with
  | none => ⟨404, errorBody "Not found", db⟩
  | some (idx, old) =>
    let next : Item := ⟨old.id, old.createdAt, now, body⟩
    if validateItem next.toJson then
      ⟨200, next.toJson, ⟨db.items.set idx next, db.meta⟩⟩
    else ⟨400, errorBody "Validation failed", db⟩

/-- PATCH /items/:id (lines 170-178): shallow-merge the body into the
payload, refresh updatedAt; envelope validation only. -/
def patchItem (db : Db) (id : String) (body : Obj) (now : String) : HResp :=
  match findWithIdx (itemIdPred id) db.items with
  | none => ⟨404, errorBody "Not found", db⟩
  | some (idx, old) =>
    let merged : Item := ⟨old.id, old.createdAt, now, jmerge old.payload body⟩
    if validateItem merged.toJson then
      ⟨200, merged.toJson, ⟨db.items.set idx merged, db.meta⟩⟩
    else ⟨400, errorBody "Validation failed", db⟩

/-- DELETE /items/:id (lines 180-186): splice the item out, no
authentication of any sort. -/
def deleteItem (db : Db) (id : String) : HResp :=
  match findWithIdx (itemIdPred id) db.items with
  | none => ⟨404, errorBody "Not found", db⟩
  | some (idx, old) =>
    ⟨200, .obj [("ok", .bool true), ("removedId", .str old.id)],
      ⟨db.items.eraseIdx idx, db.meta⟩⟩

/-- Task payload defaulting of POST and PUT /tasks: spread the body over
the literal with kind, empty tags, priority 3 and status todo. -/
def taskDefaulted (body : Obj) : Obj :=
  jmerge [("kind", .str "task"), ("tags", .arr []), ("priority", .int 3), ("status", .str "todo")] body

/-- POST /tasks (lines 207-218): default, validate the task payload,
wrap, validate the envelope, append. -/
def postTask (db : Db) (body : Obj) (now newId : String) : HResp :=
  let payload := taskDefaulted body
  if !validateTaskPayload payload then ⟨400, errorBody "Task payload validation failed", db⟩
  else
    let item : Item := ⟨newId, now, now, payload⟩
    if validateItem item.toJson then ⟨201, item.toJson, ⟨db.items ++ [item], db.meta⟩⟩
    else ⟨400, errorBody "Validation failed", db⟩

/-- PUT /tasks/:id (lines 220-233): default the body afresh and replace
the payload of the matching task item. -/
def putTask (db : Db) (id : String) (body : Obj) (now : String) : HResp :=
  match findWithIdx (taskPred id) db.items with
  | none => ⟨404, errorBody "Not found", db⟩
  | some (idx, old) =>
    let payload := taskDefaulted body
    if !validateTaskPayload payload then ⟨400, errorBody "Task payload validation failed", db⟩
    else
      let next : Item := ⟨old.id, old.createdAt, now, payload⟩
      if validateItem next.toJson then ⟨200, next.toJson, ⟨db.items.set idx next, db.meta⟩⟩
      else ⟨400, errorBody "Validation failed", db⟩

/-- The merged payload of PATCH /tasks/:id (line 240): shallow merge of
the stored payload with the body, kind pinned to task. -/
def taskMergedOf (stored body : Obj) : Obj :=
  jmerge (jmerge stored body) [("kind", .str "task")]

/-- PATCH /tasks/:id (lines 235-247): shallow merge with kind pinned,
task payload validation, envelope validation, store. -/
def patchTask (db : Db) (id : String) (body : Obj) (now : String) : HResp :=
  match findWithIdx (taskPred id) db.items with
  | none => ⟨404, errorBody "Not found", db⟩
  | some (idx, old) =>
    let mergedPayload := taskMergedOf old.payload body
    if !validateTaskPayload mergedPayload then ⟨400, errorBody "Task payload validation failed", db⟩
    else
      let merged : Item := ⟨old.id, old.createdAt, now, mergedPayload⟩
      if validateItem merged.toJson then ⟨200, merged.toJson, ⟨db.items.set idx merged, db.meta⟩⟩
      else ⟨400, errorBody "Validation failed", db⟩

/-- POST /import (lines 117-128): validate every incoming item against
the envelope schema only, then replace the whole store (items and meta)
with the incoming document.  Incoming items are taken here already in
envelope shape; items of any other shape are rejected by the same
validator and leave the store unchanged, so nothing accepted is lost by
this typing. -/
def postImport (db : Db) (incoming : List Item) (metaIn : Obj) (now : String) : HResp :=
  if incoming.all (fun it => validateItem it.toJson) then
    ⟨200, .obj [("ok", .bool true), ("total", .int incoming.length)],
      ⟨incoming, jmerge metaIn [("importedAt", .str now)]⟩⟩
  else ⟨400, errorBody "Item validation failed", db⟩

/-! Comment routes. -/

/-- The response payload of comment routes: kind pinned, then the
imdbID, name, message and rating fields of the stored payload; the
stored authorToken is never listed. -/
def commentRespPayload (p : Obj) : Obj :=
  ("kind", JsonVal.str "comment") :: pickKeys p ["imdbID", "name", "message", "rating"]

/-- The response body of POST and PATCH /comments: envelope fields plus
the stripped comment payload. -/
def commentRespBody (i : Item) : JsonVal :=
  .obj [("id", .str i.id), ("createdAt", .str i.createdAt), ("updatedAt", .str i.updatedAt),
        ("payload", .obj (commentRespPayload i.payload))]

/-- One entry of the GET /comments listing: envelope fields, the derived
own flag, and the stripped payload. -/
structure ListedComment where
  id : String
  createdAt : String
  updatedAt : String
  own : Bool
  payload : Obj

/-- Map a stored comment item to its listing entry for the given caller
token: own is token truthy and stored authorToken === token. -/
def commentView (token : String) (i : Item) : ListedComment :=
  { id := i.id, createdAt := i.createdAt, updatedAt := i.updatedAt
    own := (token != "") && strValIs (jget i.payload "authorToken") token
    payload := commentRespPayload i.payload }

/-- GET /comments (lines 537-565): filter to comment kind, optional
imdbID filter, sort by createdAt descending, paginate, map to stripped
entries. -/
def getComments (db : Db) (token : String) (imdbID : Option String) (page limit : Option Int) :
    Page ListedComment :=
  let items := db.items.filter (fun i => kindIs i "comment")
  let items :=
    match imdbID with
    | some q =>
      if q = "" then items else items.filter (fun i => strValIs (jget i.payload "imdbID") q)
    | none => items
  let paged := paginate (sortByDateDesc (fun i => i.createdAt) items) page limit
  ⟨paged.data.map (commentView token), paged.page, paged.limit, paged.total⟩

/-- The constructed payload of POST /comments: defaults, body, then the
callers token stamped as authorToken. -/
def commentCreatePayload (body : Obj) (token : String) : Obj :=
  jmerge (jmerge [("kind", .str "comment"), ("rating", .int 5)] body) [("authorToken", .str token)]

/-- POST /comments (lines 567-609): 401 unless the token has at least 16
characters, validate the stamped payload, validate the envelope, append,
201 with the stripped payload. -/
def postComment (db : Db) (token : String) (body : Obj) (now newId : String) : HResp :=
  if token = "" || token.length < 16 then
    ⟨401, authErrorBody "Missing or invalid x-user-token", db⟩
  else
    let payload := commentCreatePayload body token
    if !validateCommentPayload payload then
      ⟨400, validationErrorBody (commentPayloadErrors payload), db⟩
    else
      let item : Item := ⟨newId, now, now, payload⟩
      if !validateItem item.toJson then ⟨400, errorBody "Validation failed", db⟩
      else ⟨201, commentRespBody item, ⟨db.items ++ [item], db.meta⟩⟩

/-- The merged payload of PATCH /comments/:id (lines 628-633): shallow
merge of stored payload and body, kind pinned to comment and authorToken
pinned to the callers token (which ownership checking has already
equated with the stored authorToken). -/
def commentMergedOf (stored body : Obj) (token : String) : Obj :=
  jmerge (jmerge stored body) [("kind", .str "comment"), ("authorToken", .str token)]

/-- PATCH /comments/:id (lines 611-665): 401 on short token, 404 when no
comment item has the id, 403 unless stored authorToken === token, then
merge, validate, store, respond with the stripped payload. -/
def patchComment (db : Db) (token id : String) (body : Obj) (now : String) : HResp :=
  if token = "" || token.length < 16 then
    ⟨401, authErrorBody "Missing or invalid x-user-token", db⟩
  else
    match findWithIdx (commentPred id) db.items with
    | none => ⟨404, errorBody "Not found", db⟩
    | some (idx, old) =>
      if !strValIs (jget old.payload "authorToken") token then ⟨403, errorBody "Forbidden", db⟩
      else
        let mergedPayload := commentMergedOf old.payload body token
        if !validateCommentPayload mergedPayload then
          ⟨400, validationErrorBody (commentPayloadErrors mergedPayload), db⟩
        else
          let merged : Item := ⟨old.id, old.createdAt, now, mergedPayload⟩
          if !validateItem merged.toJson then ⟨400, errorBody "Validation failed", db⟩
          else ⟨200, commentRespBody merged, ⟨db.items.set idx merged, db.meta⟩⟩

/-- DELETE /comments/:id (lines 667-687): 401 on short token, 404 when no
comment item has the id, 403 unless stored authorToken === token, then
splice the item out. -/
def deleteComment (db : Db) (token id : String) : HResp :=
  if token = "" || token.length < 16 then
    ⟨401, authErrorBody "Missing or invalid x-user-token", db⟩
  else
    match findWithIdx (commentPred id) db.items with
    | none => ⟨404, errorBody "Not found", db⟩
    | some (idx, old) =>
      if !strValIs (jget old.payload "authorToken") token then ⟨403, errorBody "Forbidden", db⟩
      else
        ⟨200, .obj [("ok", .bool true), ("removedId", .str old.id)],
          ⟨db.items.eraseIdx idx, db.meta⟩⟩

/-! Card routes. -/

/-- The response payload of card routes: kind pinned, the public fields
of the stored payload, imageUrl null-coalesced and isPublic coerced to a
boolean; the stored authorToken is never listed. -/
def cardRespPayload (p : Obj) : Obj :=
  ("kind", JsonVal.str "userCard") ::
    pickKeys p ["name", "movieTitle", "title", "description"] ++
    [("imageUrl", nullCoalesce (jget p "imageUrl")),
     ("isPublic", JsonVal.bool (optTruthy (jget p "isPublic")))]

/-- The response body of POST and PATCH /cards. -/
def cardRespBody (i : Item) : JsonVal :=
  .obj [("id", .str i.id), ("createdAt", .str i.createdAt), ("updatedAt", .str i.updatedAt),
        ("payload", .obj (cardRespPayload i.payload))]

/-- One entry of the GET /cards listing. -/
structure ListedCard where
  id : String
  createdAt : String
  updatedAt : String
  own : Bool
  payload : Obj

/-- Map a stored card item to its listing entry for the given caller
token. -/
def cardView (token : String) (i : Item) : ListedCard :=
  { id := i.id, createdAt := i.createdAt, updatedAt := i.updatedAt
    own := (token != "") && strValIs (jget i.payload "authorToken") token
    payload := cardRespPayload i.payload }

/-- Is the public view requested (String(onlyPublic) === "true")? -/
def onlyPublicRequested (onlyPublic : Option String) : Bool :=
  match onlyPublic with
  | some s => s == "true"
  | none => false

/-- The visibility filter of GET /cards (lines 696-704): admin sees all
userCard items; otherwise the public view shows the cards with isPublic
=== true and the default view the cards whose authorToken === the
callers token. -/
def cardsVisible (db : Db) (requester : String) (admin : Bool) (onlyPublic : Option String) :
    List Item :=
  let cards := db.items.filter (fun i => kindIs i "userCard")
  if admin then cards
  else if onlyPublicRequested onlyPublic then
    cards.filter (fun i => boolValIs (jget i.payload "isPublic") true)
  else cards.filter (fun i => strValIs (jget i.payload "authorToken") requester)

/-- GET /cards (lines 690-726): visibility filter, sort by updatedAt
descending, paginate, map to stripped entries. -/
def getCards (db : Db) (requester : String) (adminEnv : Option String) (adminHeader : String)
    (onlyPublic : Option String) (page limit : Option Int) : Page ListedCard :=
  let items := cardsVisible db requester (isAdmin adminEnv adminHeader) onlyPublic
  let paged := paginate (sortByDateDesc (fun i => i.updatedAt) items) page limit
  ⟨paged.data.map (cardView requester), paged.page, paged.limit, paged.total⟩

/-- The constructed payload of POST /cards (lines 738-745): defaults,
body, the imageUrl normalization spread (a truthy body imageUrl is kept,
anything else becomes null), then the callers token stamped as
authorToken. -/
def cardCreatePayload (body : Obj) (token : String) : Obj :=
  jmerge (jmerge [("kind", .str "userCard"), ("isPublic", .bool false)] body)
    ((if optTruthy (jget body "imageUrl") then
        match jget body "imageUrl" with
        | some v => [("imageUrl", v)]
        | none => [("imageUrl", .null)]
      else [("imageUrl", .null)]) ++ [("authorToken", .str token)])

/-- POST /cards (lines 728-780): 401 unless the token has at least 16
characters, validate the stamped payload, validate the envelope, append,
201 with the stripped payload. -/
def postCard (db : Db) (token : String) (body : Obj) (now newId : String) : HResp :=
  if token = "" || token.length < 16 then
    ⟨401, authErrorBody "Missing or invalid x-user-token", db⟩
  else
    let payload := cardCreatePayload body token
    if !validateCardPayload payload then
      ⟨400, validationErrorBody (cardPayloadErrors payload), db⟩
    else
      let item : Item := ⟨newId, now, now, payload⟩
      if !validateItem item.toJson then ⟨400, errorBody "Validation failed", db⟩
      else ⟨201, cardRespBody item, ⟨db.items ++ [item], db.meta⟩⟩

/-- The merged payload of PATCH /cards/:id (lines 801-808): shallow merge
of stored payload and body, kind pinned to userCard, authorToken pinned
to the STORED authorToken (undefined when the stored card has none, which
the later serialization drops), and a falsy imageUrl normalized to
null. -/
def cardMergedOf (stored body : Obj) : Obj :=
  let base := jmerge (jmerge stored body) [("kind", .str "userCard")]
  let base :=
    match jget stored "authorToken" with
    | some v => jmerge base [("authorToken", v)]
    | none => jerase base "authorToken"
  if optTruthy (jget base "imageUrl") then base else jmerge base [("imageUrl", .null)]

/-- PATCH /cards/:id (lines 782-842): 401 when the token is empty and the
caller is not admin, 404 when no userCard item has the id, 403 unless
the caller owns the card (stored authorToken === token) or is admin,
then merge, validate, store, respond with the stripped payload. -/
def patchCard (db : Db) (token : String) (adminEnv : Option String) (adminHeader : String)
    (id : String) (body : Obj) (now : String) : HResp :=
  if token = "" && !(isAdmin adminEnv adminHeader) then ⟨401, authErrorBody "No token", db⟩
  else
    match findWithIdx (cardPred id) db.items with
    | none => ⟨404, errorBody "Not found", db⟩
    | some (idx, old) =>
      if !(strValIs (jget old.payload "authorToken") token) && !(isAdmin adminEnv adminHeader) then
        ⟨403, errorBody "Forbidden", db⟩
      else
        let mergedPayload := cardMergedOf old.payload body
        if !validateCardPayload mergedPayload then
          ⟨400, validationErrorBody (cardPayloadErrors mergedPayload), db⟩
        else
          let merged : Item := ⟨old.id, old.createdAt, now, mergedPayload⟩
          if !validateItem merged.toJson then ⟨400, errorBody "Validation failed", db⟩
          else ⟨200, cardRespBody merged, ⟨db.items.set idx merged, db.meta⟩⟩

/-- DELETE /cards/:id (lines 844-866): 401 when the token is empty and
the caller is not admin, 404 when no userCard item has the id, 403
unless the caller owns the card or is admin, then splice the item
out. -/
def deleteCard (db : Db) (token : String) (adminEnv : Option String) (adminHeader : String)
    (id : String) : HResp :=
  if token = "" && !(isAdmin adminEnv adminHeader) then ⟨401, authErrorBody "No token", db⟩
  else
    match findWithIdx (cardPred id) db.items with
    | none => ⟨404, errorBody "Not found", db⟩
    | some (idx, old) =>
      if !(strValIs (jget old.payload "authorToken") token) && !(isAdmin adminEnv adminHeader) then
        ⟨403, errorBody "Forbidden", db⟩
      else
        ⟨200, .obj [("ok", .bool true), ("removedId", .str old.id)],
          ⟨db.items.eraseIdx idx, db.meta⟩⟩

/-! Claim-side definitions: formulas transcribed from the specification
wording, for comparison against the behaviour of the code above. -/

/-- Shallow merge as the specification words it for PATCH on a typed
resource: every top-level field of the body replaces the stored field
wholesale and the kind discriminator is pinned afterwards. -/
def specShallowPatch (stored body : Obj) (kind : String) : Obj :=
  jmerge (jmerge stored body) [("kind", .str kind)]

/-- Limit as the specification words it: the parsed limit clamped to the
inclusive range [1, 200], with non-numeric or missing input falling back
to 50. -/
def specClampedLimit (l : Option Int) : Int :=
  match l with
  | none => 50
  | some n => min 200 (max 1 n)

/-- Does the stored item satisfy the schema registered for its payload
kind (trivially true for unrecognized kinds)? -/
def kindSchemaOk (i : Item) : Bool :=
  match jget i.payload "kind" with
  | some (JsonVal.str "comment") => validateCommentPayload i.payload
  | some (JsonVal.str "userCard") => validateCardPayload i.payload
  | some (JsonVal.str "task") => validateTaskPayload i.payload
  | _ => true

/-- The full store invariant of the specification: every stored item
satisfies the envelope schema and, for recognized kinds, the
kind-specific payload schema. -/
def storeInvariant (db : Db) : Bool :=
  db.items.all (fun i => validateItem i.toJson && kindSchemaOk i)

/-- The id column of a store. -/
def idsOf (l : List Item) : List String := l.map Item.id

/-- Does a single-item response body expose a top-level authorToken field
inside its payload object? -/
def bodyExposesAuthorToken (b : JsonVal) : Bool :=
  match b with
  | .obj o =>
    match jget o "payload" with
    | some (.obj p) => jhas p "authorToken"
    | _ => false
  | _ => false

/-! Concrete data used by counterexamples and witnesses. -/

/-- A valid uuid (groups 8-4-4-4-12). -/
def uuidA : String := "11111111-1111-4111-8111-111111111111"

/-- A second valid uuid. -/
def uuidB : String := "22222222-2222-4222-8222-222222222222"

/-- A timestamp in toISOString form. -/
def tsA : String := "2024-01-01T00:00:00.000Z"

/-- A later timestamp in toISOString form. -/
def tsB : String := "2024-02-01T00:00:00.000Z"

/-- A 16-character author token. -/
def tokA : String := "tokentokentoken1"

/-- A different 16-character token. -/
def tokB : String := "tokentokentoken2"

/-- A schema-valid comment payload owned by tokA. -/
def exCommentPayload : Obj :=
  [("kind", .str "comment"), ("imdbID", .str "tt0111161"), ("name", .str "Al"),
   ("message", .str "Great film"), ("rating", .int 5), ("authorToken", .str tokA)]

/-- A stored comment item. -/
def exCommentItem : Item := ⟨uuidA, tsA, tsA, exCommentPayload⟩

/-- A store holding one comment item. -/
def exCommentDb : Db := ⟨[exCommentItem], []⟩

/-- A schema-valid userCard payload owned by tokA, not public. -/
def exCardPayload : Obj :=
  [("kind", .str "userCard"), ("name", .str "Al"), ("movieTitle", .str "Heat"),
   ("title", .str "My card"), ("description", .str "A fine movie"), ("imageUrl", .null),
   ("isPublic", .bool false), ("authorToken", .str tokA)]

/-- A stored userCard item. -/
def exCardItem : Item := ⟨uuidB, tsA, tsA, exCardPayload⟩

/-- A store holding one userCard item. -/
def exCardDb : Db := ⟨[exCardItem], []⟩

/-- A public userCard owned by tokB. -/
def exCardPayloadB : Obj :=
  [("kind", .str "userCard"), ("name", .str "Bo"), ("movieTitle", .str "Big"),
   ("title", .str "Other card"), ("description", .str "Also fine"), ("imageUrl", .null),
   ("isPublic", .bool true), ("authorToken", .str tokB)]

/-- A second stored userCard item, public, with a later timestamp. -/
def exCardItemB : Item := ⟨uuidA, tsB, tsB, exCardPayloadB⟩

/-- A store holding both userCard items. -/
def exCardsDb : Db := ⟨[exCardItem, exCardItemB], []⟩


/-- The four ways a handler leaves the id column: store untouched, one
position replaced by an item with the same id, one position removed, or
one item with the freshly generated id appended. -/
def preservesIds (db : Db) (newId : String) (r : HResp) : Prop :=
  r.db.items = db.items ∨
  (∃ idx old merged, db.items.get? idx = some old ∧ merged.id = old.id ∧
    r.db.items = db.items.set idx merged) ∨
  (∃ idx, r.db.items = db.items.eraseIdx idx) ∨
  (∃ it : Item, it.id = newId ∧ r.db.items = db.items ++ [it])

/-- The errors array of an error response body. -/
def respErrors (b : JsonVal) : List JsonVal :=
  match b with
  | .obj o =>
    match jget o "errors" with
    | some (.arr l) => l
    | _ => []
  | _ => []

/-! Lemmas about the object operations. -/

/-- Lookup in an empty object. -/
theorem jget_nil (k : String) : jget [] k = none := rfl

/-- Lookup in a cons cell. -/
theorem jget_cons (k k' : String) (v : JsonVal) (t : Obj) :
    jget ((k', v) :: t) k = if k = k' then some v else jget t k := by
  by_cases h : k = k'
  · subst h; simp [jget, List.lookup]
  · have hb : (k == k') = false := beq_eq_false_iff_ne.mpr h
    simp [jget, List.lookup, hb, h]

/-- Lookup distributes over append, first list first. -/
theorem jget_append (a b : Obj) (k : String) :
    jget (a ++ b) k =
      match jget a k with
      | some v => some v
      | none => jget b k := by
  induction a with
  | nil => simp [jget_nil]
  | cons kv t ih =>
    rw [List.cons_append]
    rcases kv with ⟨k', v⟩
    rw [jget_cons, jget_cons]
    by_cases h : k = k' <;> simp [h, ih]

/-- Lookup under a filter that drops every binding of the key. -/
theorem jget_filter_of_drop (l : Obj) (q : String × JsonVal → Bool) (k : String)
    (h : ∀ v, q (k, v) = false) : jget (l.filter q) k = none := by
  induction l with
  | nil => rfl
  | cons kv t ih =>
    rcases kv with ⟨k', v'⟩
    rw [List.filter_cons]
    by_cases hk : k = k'
    · subst hk
      rw [h v', if_neg (by simp)]
      exact ih
    · cases hq : q (k', v')
      · rw [if_neg (by simp)]
        exact ih
      · rw [if_pos rfl, jget_cons, if_neg hk]
        exact ih

/-- Lookup under a filter that keeps every binding of the key. -/
theorem jget_filter_of_keep (l : Obj) (q : String × JsonVal → Bool) (k : String)
    (h : ∀ v, q (k, v) = true) : jget (l.filter q) k = jget l k := by
  induction l with
  | nil => rfl
  | cons kv t ih =>
    rcases kv with ⟨k', v'⟩
    rw [List.filter_cons, jget_cons]
    by_cases hk : k = k'
    · subst hk
      rw [h v', if_pos rfl, jget_cons]
      simp
    · cases hq : q (k', v')
      · rw [if_neg (by simp), if_neg hk]
        exact ih
      · rw [if_pos rfl, jget_cons, if_neg hk, if_neg hk]
        exact ih

/-- Lookup in a spread merge: the right object wins, the left is the
fallback. -/
theorem jget_merge (a b : Obj) (k : String) :
    jget (jmerge a b) k =
      match jget b k with
      | some v => some v
      | none => jget a k := by
  unfold jmerge
  rw [jget_append]
  cases hb : jget b k with
  | none =>
    rw [jget_filter_of_keep a _ k (fun v => by simp [hb])]
    cases jget a k <;> rfl
  | some w =>
    rw [jget_filter_of_drop a _ k (fun v => by simp [hb])]

/-- Lookup after erasing a key. -/
theorem jget_jerase (o : Obj) (k k' : String) :
    jget (jerase o k) k' = if k' = k then none else jget o k' := by
  unfold jerase
  by_cases h : k' = k
  · subst h
    rw [if_pos rfl]
    exact jget_filter_of_drop o _ k' (fun v => by simp)
  · rw [if_neg h]
    exact jget_filter_of_keep o _ k' (fun v => by simp [h])

/-- Lookup of a key outside the projection list. -/
theorem jget_pickKeys_not_mem (o : Obj) (ks : List String) (k : String) (hk : k ∉ ks) :
    jget (pickKeys o ks) k = none := by
  induction ks with
  | nil => rfl
  | cons k' t ih =>
    have hk' : k ≠ k' := fun e => hk (by rw [e]; exact List.mem_cons_self k' t)
    have ht : k ∉ t := fun e => hk (List.mem_cons_of_mem k' e)
    show jget (List.filterMap _ (k' :: t)) k = none
    rw [List.filterMap_cons]
    cases hv : jget o k' with
    | none =>
      show jget (pickKeys o t) k = none
      exact ih ht
    | some v =>
      show jget ((k', v) :: pickKeys o t) k = none
      rw [jget_cons, if_neg hk']
      exact ih ht

/-- findWithIdx returns the element at the returned index, and the
element passes the test. -/
theorem findWithIdx_some (p : Item → Bool) (l : List Item) (n : Nat) (x : Item)
    (h : findWithIdx p l = some (n, x)) : l.get? n = some x ∧ p x = true := by
  induction l generalizing n with
  | nil => simp [findWithIdx] at h
  | cons y t ih =>
    unfold findWithIdx at h
    by_cases hy : p y = true
    · rw [if_pos hy] at h
      simp at h
      obtain ⟨h1, h2⟩ := h
      subst h1
      subst h2
      exact ⟨rfl, hy⟩
    · rw [if_neg hy] at h
      cases hr : findWithIdx p t with
      | none => rw [hr] at h; cases h
      | some r =>
        rcases r with ⟨m, z⟩
        rw [hr] at h
        simp at h
        obtain ⟨h1, h2⟩ := h
        subst h1
        subst h2
        have hmz := ih m hr
        exact ⟨by simpa using hmz.1, hmz.2⟩

/-- strValIs holds exactly for the matching string value. -/
theorem strValIs_true_iff (v : Option JsonVal) (s : String) :
    strValIs v s = true ↔ v = some (JsonVal.str s) := by
  cases v with
  | none => simp [strValIs]
  | some w => cases w <;> simp [strValIs]

/-- boolValIs holds exactly for the matching boolean value. -/
theorem boolValIs_true_iff (v : Option JsonVal) (b : Bool) :
    boolValIs v b = true ↔ v = some (JsonVal.bool b) := by
  cases v with
  | none => simp [boolValIs]
  | some w => cases w <;> simp [boolValIs]

/-- An empty requiredCheck means every required field is present. -/
theorem requiredCheck_eq_nil (o : Obj) (fs : List String) (h : requiredCheck o fs = [])
    (f : String) (hf : f ∈ fs) : jhas o f = true := by
  unfold requiredCheck at h
  rw [List.filterMap_eq_nil_iff] at h
  have := h f hf
  by_cases hp : jhas o f
  · exact hp
  · rw [if_neg hp] at this
    cases this

/-- An empty strMinLenCheck means the field is absent or a long-enough
string. -/
theorem strMinLenCheck_eq_nil (o : Obj) (f : String) (n : Nat) (h : strMinLenCheck o f n = []) :
    jget o f = none ∨ ∃ s, jget o f = some (JsonVal.str s) ∧ n ≤ s.length := by
  unfold strMinLenCheck at h
  cases hv : jget o f with
  | none => exact Or.inl rfl
  | some w =>
    rw [hv] at h
    cases w with
    | str s =>
      refine Or.inr ⟨s, rfl, ?_⟩
      by_cases hlen : s.length < n
      · simp [hlen] at h
      · omega
    | null => simp at h
    | bool b => simp at h
    | int m => simp at h
    | arr xs => simp at h
    | obj fs => simp at h

/-- A missing required field contributes its required error. -/
theorem requiredCheck_mem (o : Obj) (fs : List String) (f : String) (hf : f ∈ fs)
    (hmiss : jhas o f = false) :
    (⟨"", "required", "must have required property " ++ f, some f⟩ : AjvError) ∈
      requiredCheck o fs := by
  unfold requiredCheck
  have : (if jhas o f then none else
      some (⟨"", "required", "must have required property " ++ f, some f⟩ : AjvError)) =
      some ⟨"", "required", "must have required property " ++ f, some f⟩ := by
    rw [hmiss]; rfl
  exact List.mem_filterMap.mpr ⟨f, hf, this⟩

/-- A present but too short string field contributes its minLength
error. -/
theorem strMinLenCheck_mem (o : Obj) (f : String) (n : Nat) (s : String)
    (hv : jget o f = some (JsonVal.str s)) (hlen : s.length < n) :
    (⟨"/" ++ f, "minLength", "must NOT have fewer than " ++ toString n ++ " characters",
      none⟩ : AjvError) ∈ strMinLenCheck o f n := by
  simp [strMinLenCheck, hv, hlen]

/-- Membership in sorted items is membership in the items. -/
theorem mem_sortByDateDesc (key : Item → String) (l : List Item) (x : Item) :
    x ∈ sortByDateDesc key l ↔ x ∈ l :=
  (List.perm_insertionSort _ l).mem_iff

/-- Sorting preserves length. -/
theorem length_sortByDateDesc (key : Item → String) (l : List Item) :
    (sortByDateDesc key l).length = l.length :=
  (List.perm_insertionSort _ l).length_eq

/-- Every element of a page is an element of the paginated array. -/
theorem mem_paginate_data {α : Type} (arr : List α) (pg lim : Option Int) (x : α)
    (h : x ∈ (paginate arr pg lim).data) : x ∈ arr := by
  unfold paginate at h
  exact List.mem_of_mem_drop (List.mem_of_mem_take h)

/-- The total of a page is the length of the paginated array. -/
theorem paginate_total {α : Type} (arr : List α) (pg lim : Option Int) :
    (paginate arr pg lim).total = arr.length := rfl

/-- Setting an index to an item with the same id leaves the id column
unchanged. -/
theorem idsOf_set (l : List Item) (n : Nat) (old it : Item) (hn : l.get? n = some old)
    (hid : it.id = old.id) : idsOf (l.set n it) = idsOf l := by
  induction l generalizing n with
  | nil => cases hn
  | cons y t ih =>
    cases n with
    | zero =>
      have : old = y := by injection hn with h; exact h.symm
      subst this
      simp [idsOf, hid]
    | succ m =>
      have := ih m hn
      simp only [List.set_cons_succ, idsOf, List.map_cons]
      rw [show (t.set m it).map Item.id = t.map Item.id from this]

/-- Removing an index preserves distinctness of the id column. -/
theorem idsOf_eraseIdx_nodup (l : List Item) (n : Nat) (h : (idsOf l).Nodup) :
    (idsOf (l.eraseIdx n)).Nodup :=
  List.Nodup.sublist (List.Sublist.map Item.id (List.eraseIdx_sublist l n)) h

/-- Appending an item with a fresh id preserves distinctness of the id
column. -/
theorem idsOf_append_nodup (l : List Item) (it : Item) (h : (idsOf l).Nodup)
    (hfresh : it.id ∉ idsOf l) : (idsOf (l ++ [it])).Nodup := by
  unfold idsOf at *
  rw [List.map_append]
  rw [List.nodup_append]
  refine ⟨h, List.nodup_singleton _, ?_⟩
  intro a ha hb
  simp at hb
  subst hb
  exact hfresh ha

/-- The comment response payload never carries authorToken. -/
theorem commentRespPayload_no_authorToken (p : Obj) :
    jhas (commentRespPayload p) "authorToken" = false := by
  unfold jhas commentRespPayload
  rw [jget_cons, if_neg (by decide)]
  rw [jget_pickKeys_not_mem p _ "authorToken" (by decide)]
  rfl

/-- The card response payload never carries authorToken. -/
theorem cardRespPayload_no_authorToken (p : Obj) :
    jhas (cardRespPayload p) "authorToken" = false := by
  unfold jhas cardRespPayload
  rw [jget_append]
  rw [jget_cons, if_neg (by decide)]
  rw [jget_pickKeys_not_mem p _ "authorToken" (by decide)]
  rw [jget_cons, if_neg (by decide), jget_cons, if_neg (by decide)]
  rfl

/-- The own flag unfolded to its propositional content. -/
theorem own_flag_iff (token : String) (p : Obj) :
    (((token != "") && strValIs (jget p "authorToken") token) = true) ↔
      (token ≠ "" ∧ jget p "authorToken" = some (JsonVal.str token)) := by
  rw [Bool.and_eq_true, bne_iff_ne, strValIs_true_iff]

/-- CLAIM C8 counterexample: the specification says the limit is the
parsed limit clamped to [1, 200] (so a parsed limit of 0 would clamp
to 1), but paginate treats a parsed 0 as falsy and falls back to 50. -/
theorem c8_counterexample :
    (paginate ([0] : List Nat) none (some 0)).limit = 50 ∧
      specClampedLimit (some 0) = 1 ∧ (50 : Int) ≠ 1 := by
  refine ⟨by decide, by decide, by decide⟩

/-- CLAIM C8 (amended): for every listing, page is max(1, parsed page)
with fallback 1; limit is the parsed limit clamped to [1, 200] except
that a missing, non-numeric or ZERO parsed limit falls back to 50;
data is the slice of the array from index (page-1)*limit of length at
most limit; and total is the length of the whole array, not the page.
Parsed query parameters are Option Int, none modelling NaN (missing or
non-numeric input), so non-numeric input never fails the request: every
input yields a well-formed page. -/
theorem c8_amended {α : Type} (arr : List α) (pg lim : Option Int) :
    (paginate arr pg lim).page = max 1 (pg.getD 1) ∧
    (paginate arr pg lim).limit =
      (match lim with
       | none => 50
       | some n => if n = 0 then 50 else min 200 (max 1 n)) ∧
    (paginate arr pg lim).total = arr.length ∧
    (paginate arr pg lim).data =
      (arr.drop (((paginate arr pg lim).page - 1) * (paginate arr pg lim).limit).toNat).take
        (paginate arr pg lim).limit.toNat ∧
    (paginate arr pg lim).data.length ≤ (paginate arr pg lim).limit.toNat := by
  refine ⟨?_, ?_, rfl, rfl, ?_⟩
  · cases pg with
    | none => rfl
    | some n =>
      show max 1 (jsOr (some n) 1) = max 1 n
      simp only [jsOr]
      by_cases hn : n = 0
      · subst hn; decide
      · rw [if_neg hn]
  · cases lim with
    | none => rfl
    | some n =>
      show min 200 (max 1 (jsOr (some n) 50)) = if n = 0 then 50 else min 200 (max 1 n)
      simp only [jsOr]
      by_cases hn : n = 0
      · subst hn; decide
      · rw [if_neg hn, if_neg hn]
  · show ((arr.drop _).take (paginate arr pg lim).limit.toNat).length ≤ _
    rw [List.length_take]
    exact min_le_left _ _

/-- CLAIM C1 counterexample: the generic route GET /items/:id, applied to
a stored item whose payload kind is comment, returns the stored item
verbatim, authorToken included, so the claim that every response with a
comment payload strips authorToken is false at this input. -/
theorem c1_counterexample :
    kindIs exCommentItem "comment" = true ∧
    (getItemById exCommentDb uuidA).status = 200 ∧
    bodyExposesAuthorToken (getItemById exCommentDb uuidA).body = true := by
  refine ⟨by decide, by decide, by decide⟩

/-- CLAIM C1 (amended): the typed listing endpoints GET /comments and
GET /cards strip authorToken from every returned entry and carry the
derived boolean own, true exactly when the callers x-user-token is
non-empty and equals the stored authorToken of the listed item; the
generic routes do not: GET /items returns stored items unmodified and
GET /items/:id returns the stored item verbatim (so those two expose
authorToken, as the counterexample shows). -/
theorem c1_amended (db : Db) (token : String) (imdbID q : Option String)
    (adminEnv : Option String) (adminHeader : String) (onlyPublic : Option String)
    (pg lim : Option Int) (id : String) :
    (∀ e ∈ (getComments db token imdbID pg lim).data,
        jhas e.payload "authorToken" = false ∧
        ∃ i ∈ db.items, kindIs i "comment" = true ∧ e.id = i.id ∧
          (e.own = true ↔
            token ≠ "" ∧ jget i.payload "authorToken" = some (JsonVal.str token))) ∧
    (∀ e ∈ (getCards db token adminEnv adminHeader onlyPublic pg lim).data,
        jhas e.payload "authorToken" = false ∧
        ∃ i ∈ db.items, kindIs i "userCard" = true ∧ e.id = i.id ∧
          (e.own = true ↔
            token ≠ "" ∧ jget i.payload "authorToken" = some (JsonVal.str token))) ∧
    (∀ e ∈ (getItems db q pg lim).data, e ∈ db.items) ∧
    (∀ n i, findWithIdx (itemIdPred id) db.items = some (n, i) →
        getItemById db id = ⟨200, i.toJson, db⟩) := by
  refine ⟨?_, ?_, ?_, ?_⟩
  · intro e he
    obtain ⟨i, hi, rfl⟩ := List.mem_map.mp he
    obtain hi2 := mem_paginate_data _ pg lim i hi
    rw [mem_sortByDateDesc] at hi2
    have hi3 : i ∈ db.items.filter (fun i => kindIs i "comment") := by
      cases imdbID with
      | none => exact hi2
      | some s =>
        replace hi2 : i ∈ (if s = "" then db.items.filter (fun i => kindIs i "comment")
            else (db.items.filter (fun i => kindIs i "comment")).filter
              (fun i => strValIs (jget i.payload "imdbID") s)) := hi2
        by_cases hs : s = ""
        · rwa [if_pos hs] at hi2
        · rw [if_neg hs] at hi2
          exact List.mem_filter.mp hi2 |>.1
    obtain ⟨hmem, hkind⟩ := List.mem_filter.mp hi3
    exact ⟨commentRespPayload_no_authorToken i.payload,
      i, hmem, hkind, rfl, own_flag_iff token i.payload⟩
  · intro e he
    obtain ⟨i, hi, rfl⟩ := List.mem_map.mp he
    obtain hi2 := mem_paginate_data _ pg lim i hi
    rw [mem_sortByDateDesc] at hi2
    have hi3 : i ∈ db.items.filter (fun i => kindIs i "userCard") := by
      unfold cardsVisible at hi2
      by_cases ha : isAdmin adminEnv adminHeader = true
      · rw [if_pos ha] at hi2; exact hi2
      · rw [if_neg ha] at hi2
        by_cases hp : onlyPublicRequested onlyPublic = true
        · rw [if_pos hp] at hi2
          exact List.mem_filter.mp hi2 |>.1
        · rw [if_neg hp] at hi2
          exact List.mem_filter.mp hi2 |>.1
    obtain ⟨hmem, hkind⟩ := List.mem_filter.mp hi3
    exact ⟨cardRespPayload_no_authorToken i.payload,
      i, hmem, hkind, rfl, own_flag_iff token i.payload⟩
  · intro e he
    obtain he2 := mem_paginate_data _ pg lim e he
    rw [mem_sortByDateDesc] at he2
    cases q with
    | none => exact he2
    | some s =>
      replace he2 : e ∈ (if s = "" then db.items
          else db.items.filter (fun i =>
            strContains (lowerAscii (jsonStringify (.obj i.payload))) (lowerAscii s))) := he2
      by_cases hs : s = ""
      · rwa [if_pos hs] at he2
      · rw [if_neg hs] at he2
        exact List.mem_filter.mp he2 |>.1
  · intro n i h
    unfold getItemById
    rw [h]

/-- CLAIM C1 witness: the amended theorem applied to the one-comment
store with the owners token; the listed entry carries no authorToken and
own is characterized, and the generic GET /items/:id returns the item
verbatim. -/
theorem c1_witness :
    jhas (commentView tokA exCommentItem).payload "authorToken" = false ∧
    (∃ i ∈ exCommentDb.items, kindIs i "comment" = true ∧
        (commentView tokA exCommentItem).id = i.id ∧
        ((commentView tokA exCommentItem).own = true ↔
          tokA ≠ "" ∧ jget i.payload "authorToken" = some (JsonVal.str tokA))) ∧
    getItemById exCommentDb uuidA = ⟨200, exCommentItem.toJson, exCommentDb⟩ := by
  have h := c1_amended exCommentDb tokA none none none "" none none none uuidA
  have hm : commentView tokA exCommentItem ∈
      (getComments exCommentDb tokA none none none).data := by
    rw [show (getComments exCommentDb tokA none none none).data
        = [commentView tokA exCommentItem] from rfl]
    exact List.mem_singleton_self _
  exact ⟨(h.1 _ hm).1, (h.1 _ hm).2, h.2.2.2 0 exCommentItem rfl⟩

/-- A schema-valid card payload stores an authorToken that is a string of
at least 16 characters. -/
theorem card_valid_authorToken (o : Obj) (h : validateCardPayload o = true) :
    ∃ s, jget o "authorToken" = some (JsonVal.str s) ∧ 16 ≤ s.length := by
  unfold validateCardPayload at h
  rw [List.isEmpty_iff] at h
  unfold cardPayloadErrors at h
  simp only [List.append_eq_nil] at h
  obtain ⟨⟨⟨⟨⟨⟨⟨⟨⟨_, hreq⟩, _⟩, _⟩, _⟩, _⟩, _⟩, _⟩, _⟩, hlen⟩ := h
  have hpres : jhas o "authorToken" = true :=
    requiredCheck_eq_nil o cardRequired hreq "authorToken" (by decide)
  rcases strMinLenCheck_eq_nil o "authorToken" 16 hlen with hnone | ⟨s, hs, hsl⟩
  · unfold jhas at hpres
    rw [hnone] at hpres
    simp at hpres
  · exact ⟨s, hs, hsl⟩

/-- CLAIM C2 counterexample: PATCH /cards/:id and DELETE /cards/:id with
a non-empty 8-character token from a non-admin caller do not fail with
the 401 AuthError the claim requires: the auth check only rejects an
empty token, so the requests reach the ownership check and fail with
403 instead (the store is unchanged). -/
theorem c2_counterexample :
    ("shorttok".length < 16) ∧ ("shorttok" ≠ "") ∧ isAdmin none "" = false ∧
    (patchCard exCardDb "shorttok" none "" uuidB [] tsB).status = 403 ∧
    (patchCard exCardDb "shorttok" none "" uuidB [] tsB).db = exCardDb ∧
    (deleteCard exCardDb "shorttok" none "" uuidB).status = 403 ∧
    (deleteCard exCardDb "shorttok" none "" uuidB).db = exCardDb := by
  exact ⟨by decide, by decide, rfl, by decide, rfl, by decide, rfl⟩

/-- CLAIM C2 (amended): a token that is absent or shorter than 16
characters makes every comment mutation (POST, PATCH, DELETE /comments)
and card creation (POST /cards) fail with 401 and leave the store
unchanged.  PATCH /cards/:id and DELETE /cards/:id only answer 401 (for
a non-admin) when the token is empty; a non-empty token shorter than 16
characters passes their auth check, and the request then fails with 404
or - when the stored cards satisfy the card schema, whose authorToken
has at least 16 characters - with 403 at the ownership check, in every
case leaving the store unchanged. -/
theorem c2_amended (db : Db) (token : String) (body : Obj) (now newId id : String)
    (adminEnv : Option String) (adminHeader : String)
    (htok : token.length < 16)
    (hadmin : isAdmin adminEnv adminHeader = false)
    (hcards : ∀ i ∈ db.items, kindIs i "userCard" = true → validateCardPayload i.payload = true) :
    ((postComment db token body now newId).status = 401 ∧
      (postComment db token body now newId).db = db) ∧
    ((patchComment db token id body now).status = 401 ∧
      (patchComment db token id body now).db = db) ∧
    ((deleteComment db token id).status = 401 ∧ (deleteComment db token id).db = db) ∧
    ((postCard db token body now newId).status = 401 ∧
      (postCard db token body now newId).db = db) ∧
    (token = "" →
      (patchCard db token adminEnv adminHeader id body now).status = 401 ∧
      (patchCard db token adminEnv adminHeader id body now).db = db ∧
      (deleteCard db token adminEnv adminHeader id).status = 401 ∧
      (deleteCard db token adminEnv adminHeader id).db = db) ∧
    (token ≠ "" →
      ((patchCard db token adminEnv adminHeader id body now).status = 404 ∨
        (patchCard db token adminEnv adminHeader id body now).status = 403) ∧
      (patchCard db token adminEnv adminHeader id body now).db = db ∧
      ((deleteCard db token adminEnv adminHeader id).status = 404 ∨
        (deleteCard db token adminEnv adminHeader id).status = 403) ∧
      (deleteCard db token adminEnv adminHeader id).db = db) := by
  have hshort : (token = "" || token.length < 16) = true := by simp [htok]
  refine ⟨?_, ?_, ?_, ?_, ?_, ?_⟩
  · unfold postComment
    rw [if_pos hshort]
    exact ⟨rfl, rfl⟩
  · unfold patchComment
    rw [if_pos hshort]
    exact ⟨rfl, rfl⟩
  · unfold deleteComment
    rw [if_pos hshort]
    exact ⟨rfl, rfl⟩
  · unfold postCard
    rw [if_pos hshort]
    exact ⟨rfl, rfl⟩
  · intro hempty
    have hcond : (decide (token = "") && !(isAdmin adminEnv adminHeader)) = true := by
      simp [hempty, hadmin]
    unfold patchCard deleteCard
    rw [hcond]
    exact ⟨rfl, rfl, rfl, rfl⟩
  · intro hne
    have hcond : (decide (token = "") && !(isAdmin adminEnv adminHeader)) = false := by
      simp [hne]
    have howner : ∀ n old, findWithIdx (cardPred id) db.items = some (n, old) →
        strValIs (jget old.payload "authorToken") token = false := by
      intro n old hf
      obtain ⟨hget, hp⟩ := findWithIdx_some _ _ _ _ hf
      have hmem : old ∈ db.items := List.get?_mem hget
      have hkind : kindIs old "userCard" = true := by
        unfold cardPred at hp
        exact (Bool.and_eq_true _ _ |>.mp hp).2
      obtain ⟨s, hs, hsl⟩ := card_valid_authorToken old.payload (hcards old hmem hkind)
      rw [hs]
      cases hst : strValIs (some (JsonVal.str s)) token with
      | false => rfl
      | true =>
        have : some (JsonVal.str s) = some (JsonVal.str token) :=
          (strValIs_true_iff _ _).mp hst
        have hstok : s = token := by injection this with h2; injection h2
        rw [hstok] at hsl
        omega
    cases hf : findWithIdx (cardPred id) db.items with
    | none =>
      unfold patchCard deleteCard
      rw [hcond]
      simp only [hf]
      exact ⟨Or.inl rfl, rfl, Or.inl rfl, rfl⟩
    | some r =>
      rcases r with ⟨n, old⟩
      unfold patchCard deleteCard
      rw [hcond]
      simp only [hf]
      rw [show (!strValIs (jget old.payload "authorToken") token &&
          !(isAdmin adminEnv adminHeader)) = true by simp [howner n old hf, hadmin]]
      exact ⟨Or.inr rfl, rfl, Or.inr rfl, rfl⟩

/-- CLAIM C2 witness: the amended theorem applied to the one-card store
with the 8-character token "shorttok" and no admin credentials. -/
theorem c2_witness :
    (postComment exCardDb "shorttok" [] tsB uuidA).status = 401 ∧
    (postComment exCardDb "shorttok" [] tsB uuidA).db = exCardDb ∧
    ((patchCard exCardDb "shorttok" none "" uuidB [] tsB).status = 404 ∨
      (patchCard exCardDb "shorttok" none "" uuidB [] tsB).status = 403) ∧
    (patchCard exCardDb "shorttok" none "" uuidB [] tsB).db = exCardDb := by
  have hcards : ∀ i ∈ exCardDb.items, kindIs i "userCard" = true →
      validateCardPayload i.payload = true := by
    intro i hi _
    rw [List.mem_singleton.mp hi]
    decide
  have h := c2_amended exCardDb "shorttok" [] tsB uuidA uuidB none ""
    (by decide) (by decide) hcards
  exact ⟨h.1.1, h.1.2, (h.2.2.2.2.2 (by decide)).1, (h.2.2.2.2.2 (by decide)).2.1⟩

/-- PUT /items/:id either leaves the store unchanged or replaces one
position with an envelope-validated item. -/
theorem putItem_db_cases (db : Db) (id : String) (body : Obj) (now : String) :
    (putItem db id body now).db = db ∨
    ∃ idx next, validateItem (Item.toJson next) = true ∧
      (putItem db id body now).db = ⟨db.items.set idx next, db.meta⟩ := by
  cases hf : findWithIdx (itemIdPred id) db.items with
  | none =>
    left
    unfold putItem
    simp only [hf]
  | some r =>
    rcases r with ⟨idx, old⟩
    by_cases hv : validateItem (Item.toJson ⟨old.id, old.createdAt, now, body⟩) = true
    · right
      refine ⟨idx, ⟨old.id, old.createdAt, now, body⟩, hv, ?_⟩
      unfold putItem
      simp only [hf]
      rw [if_pos hv]
    · left
      unfold putItem
      simp only [hf]
      rw [if_neg hv]

/-- PATCH /items/:id either leaves the store unchanged or replaces one
position with an envelope-validated item. -/
theorem patchItem_db_cases (db : Db) (id : String) (body : Obj) (now : String) :
    (patchItem db id body now).db = db ∨
    ∃ idx next, validateItem (Item.toJson next) = true ∧
      (patchItem db id body now).db = ⟨db.items.set idx next, db.meta⟩ := by
  cases hf : findWithIdx (itemIdPred id) db.items with
  | none =>
    left
    unfold patchItem
    simp only [hf]
  | some r =>
    rcases r with ⟨idx, old⟩
    by_cases hv : validateItem
        (Item.toJson ⟨old.id, old.createdAt, now, jmerge old.payload body⟩) = true
    · right
      refine ⟨idx, ⟨old.id, old.createdAt, now, jmerge old.payload body⟩, hv, ?_⟩
      unfold patchItem
      simp only [hf]
      rw [if_pos hv]
    · left
      unfold patchItem
      simp only [hf]
      rw [if_neg hv]

/-- CLAIM C3 counterexample: the store holding one fully schema-valid
comment item satisfies the invariant; PUT /items/:id with the body
consisting of only a kind comment discriminator succeeds (it validates
the envelope alone), after which the stored comment payload violates
the comment schema, so the claim that the generic PUT preserves the
kind-schema invariant is false at this input. -/
theorem c3_counterexample :
    storeInvariant exCommentDb = true ∧
    (putItem exCommentDb uuidA [("kind", JsonVal.str "comment")] tsB).status = 200 ∧
    storeInvariant (putItem exCommentDb uuidA [("kind", JsonVal.str "comment")] tsB).db
      = false := by
  exact ⟨by decide, by decide, by decide⟩

/-- CLAIM C3 (amended): the generic PUT /items/:id and PATCH /items/:id
preserve the envelope part of the invariant - every stored item still
validates against the envelope schema - but not the kind-schema part,
which the counterexample shows they can break for recognized kinds. -/
theorem c3_amended (db : Db) (id : String) (body : Obj) (now : String)
    (henv : ∀ i ∈ db.items, validateItem i.toJson = true) :
    (∀ i ∈ (putItem db id body now).db.items, validateItem i.toJson = true) ∧
    (∀ i ∈ (patchItem db id body now).db.items, validateItem i.toJson = true) := by
  constructor
  · intro i hi
    rcases putItem_db_cases db id body now with hcase | ⟨idx, next, hv, hcase⟩
    · rw [hcase] at hi
      exact henv i hi
    · rw [hcase] at hi
      rcases List.mem_or_eq_of_mem_set hi with hmem | rfl
      · exact henv i hmem
      · exact hv
  · intro i hi
    rcases patchItem_db_cases db id body now with hcase | ⟨idx, next, hv, hcase⟩
    · rw [hcase] at hi
      exact henv i hi
    · rw [hcase] at hi
      rcases List.mem_or_eq_of_mem_set hi with hmem | rfl
      · exact henv i hmem
      · exact hv

/-- CLAIM C3 witness: the amended theorem applied to the one-comment
store and the kind-only PUT body; the replaced item still satisfies the
envelope schema. -/
theorem c3_witness :
    validateItem (Item.toJson ⟨uuidA, tsA, tsB, [("kind", JsonVal.str "comment")]⟩) = true := by
  have henv : ∀ i ∈ exCommentDb.items, validateItem i.toJson = true := by
    intro i hi
    rw [List.mem_singleton.mp hi]
    decide
  have h := (c3_amended exCommentDb uuidA [("kind", JsonVal.str "comment")] tsB henv).1
  refine h _ ?_
  rw [show (putItem exCommentDb uuidA [("kind", JsonVal.str "comment")] tsB).db.items
      = [⟨uuidA, tsA, tsB, [("kind", JsonVal.str "comment")]⟩] from rfl]
  exact List.mem_singleton_self _

/-- Any structured item whose id passes the uuid format check satisfies
the envelope schema: the other three constraints hold by construction of
the envelope shape. -/
theorem validateItem_mk (i : Item) (h : isUuid i.id = true) : validateItem i.toJson = true := by
  unfold validateItem Item.toJson
  simp [jget, List.lookup, h]

/-- A 16-character-or-longer token passes the comment auth check. -/
theorem authCheck_pass (t : String) (ht : 16 ≤ t.length) :
    (decide (t = "") || decide (t.length < 16)) = false := by
  simp only [Bool.or_eq_false_iff, decide_eq_false_iff_not]
  constructor
  · intro e
    rw [e] at ht
    exact absurd ht (by decide)
  · omega

/-- CLAIM C4 counterexample: with the owner token T1 and a valid foreign
token T2, the PATCH with body name "x" (one character, below the
two-character minimum) answers 403 for T2 as claimed, but the very same
request with the owner token T1 answers 400 and leaves the store
unchanged, so the claim that the same request with T1 succeeds is false
at this input. -/
theorem c4_counterexample :
    16 ≤ tokA.length ∧ 16 ≤ tokB.length ∧ tokB ≠ tokA ∧
    jget exCommentItem.payload "authorToken" = some (JsonVal.str tokA) ∧
    (patchComment exCommentDb tokB uuidA [("name", JsonVal.str "x")] tsB).status = 403 ∧
    (patchComment exCommentDb tokB uuidA [("name", JsonVal.str "x")] tsB).db = exCommentDb ∧
    (patchComment exCommentDb tokA uuidA [("name", JsonVal.str "x")] tsB).status = 400 ∧
    (patchComment exCommentDb tokA uuidA [("name", JsonVal.str "x")] tsB).db = exCommentDb := by
  exact ⟨by decide, by decide, by decide, rfl, by decide, rfl, by decide, rfl⟩

/-- CLAIM C4 (amended): for a stored comment item with author token T1
(of length at least 16) and any foreign token T2 of length at least 16,
PATCH and DELETE via the comments resource with T2 answer 403 Forbidden
and leave the store unchanged; with T1, DELETE succeeds and removes the
item, and PATCH succeeds and applies the merge provided the merged
payload passes the comment schema (which the counterexample shows is a
necessary proviso). -/
theorem c4_amended (db : Db) (n : Nat) (it : Item) (T1 T2 : String) (body : Obj) (now : String)
    (hf : findWithIdx (commentPred it.id) db.items = some (n, it))
    (hauth : jget it.payload "authorToken" = some (JsonVal.str T1))
    (hT1 : 16 ≤ T1.length) (hT2 : 16 ≤ T2.length) (hne : T2 ≠ T1)
    (huuid : isUuid it.id = true) :
    ((patchComment db T2 it.id body now).status = 403 ∧
      (patchComment db T2 it.id body now).db = db) ∧
    ((deleteComment db T2 it.id).status = 403 ∧ (deleteComment db T2 it.id).db = db) ∧
    ((deleteComment db T1 it.id).status = 200 ∧
      (deleteComment db T1 it.id).db.items = db.items.eraseIdx n) ∧
    (validateCommentPayload (commentMergedOf it.payload body T1) = true →
      (patchComment db T1 it.id body now).status = 200 ∧
      (patchComment db T1 it.id body now).db.items =
        db.items.set n ⟨it.id, it.createdAt, now, commentMergedOf it.payload body T1⟩) := by
  have hown2 : (!strValIs (jget it.payload "authorToken") T2) = true := by
    rw [hauth]
    simp only [strValIs, Bool.not_eq_true']
    exact beq_eq_false_iff_ne.mpr (fun e => hne e.symm)
  have hown1 : (!strValIs (jget it.payload "authorToken") T1) = false := by
    rw [hauth]
    simp [strValIs]
  refine ⟨?_, ?_, ?_, ?_⟩
  · unfold patchComment
    rw [authCheck_pass T2 hT2]
    simp only [hf]
    rw [hown2]
    exact ⟨rfl, rfl⟩
  · unfold deleteComment
    rw [authCheck_pass T2 hT2]
    simp only [hf]
    rw [hown2]
    exact ⟨rfl, rfl⟩
  · unfold deleteComment
    rw [authCheck_pass T1 hT1]
    simp only [hf]
    rw [hown1]
    exact ⟨rfl, rfl⟩
  · intro hv
    unfold patchComment
    rw [authCheck_pass T1 hT1]
    simp only [hf]
    rw [hown1]
    rw [show (!validateCommentPayload (commentMergedOf it.payload body T1)) = false by
      rw [hv]; rfl]
    rw [show (!validateItem (Item.toJson
        ⟨it.id, it.createdAt, now, commentMergedOf it.payload body T1⟩)) = false by
      rw [validateItem_mk ⟨it.id, it.createdAt, now, commentMergedOf it.payload body T1⟩ huuid]
      rfl]
    exact ⟨rfl, rfl⟩

/-- CLAIM C4 witness: the amended theorem applied to the one-comment
store, its owner token, the foreign token tokB and a valid message
patch. -/
theorem c4_witness :
    (patchComment exCommentDb tokB uuidA [("message", JsonVal.str "updated")] tsB).status = 403 ∧
    (deleteComment exCommentDb tokB uuidA).status = 403 ∧
    (deleteComment exCommentDb tokA uuidA).status = 200 ∧
    (deleteComment exCommentDb tokA uuidA).db.items = exCommentDb.items.eraseIdx 0 ∧
    (patchComment exCommentDb tokA uuidA [("message", JsonVal.str "updated")] tsB).status
      = 200 := by
  have h := c4_amended exCommentDb 0 exCommentItem tokA tokB
    [("message", JsonVal.str "updated")] tsB rfl rfl (by decide) (by decide) (by decide)
    (by decide)
  exact ⟨h.1.1, h.2.1.1, h.2.2.1.1, h.2.2.1.2, (h.2.2.2 (by decide)).1⟩

/-- CLAIM C5 (confirmed): the generic item routes take no token argument
at all - the handlers never read x-user-token - and operate on items of
any payload kind, comment and userCard included: DELETE /items/:id
removes the item, PUT /items/:id replaces the payload wholesale with the
request body (authorToken included) and PATCH /items/:id shallow-merges
the body over the stored payload, the body authorToken overriding the
stored one. -/
theorem c5_theorem (db : Db) (n : Nat) (it : Item) (body : Obj) (now : String)
    (hf : findWithIdx (itemIdPred it.id) db.items = some (n, it))
    (huuid : isUuid it.id = true)
    (_hkind : kindIs it "comment" = true ∨ kindIs it "userCard" = true) :
    ((deleteItem db it.id).status = 200 ∧
      (deleteItem db it.id).db.items = db.items.eraseIdx n) ∧
    ((putItem db it.id body now).status = 200 ∧
      (putItem db it.id body now).db.items =
        db.items.set n ⟨it.id, it.createdAt, now, body⟩) ∧
    ((patchItem db it.id body now).status = 200 ∧
      (patchItem db it.id body now).db.items =
        db.items.set n ⟨it.id, it.createdAt, now, jmerge it.payload body⟩) ∧
    (∀ v, jget body "authorToken" = some v →
      jget (jmerge it.payload body) "authorToken" = some v) := by
  refine ⟨?_, ?_, ?_, ?_⟩
  · unfold deleteItem
    simp only [hf]
    exact ⟨by first | rfl | trivial, by first | rfl | trivial⟩
  · unfold putItem
    simp only [hf]
    rw [if_pos (validateItem_mk ⟨it.id, it.createdAt, now, body⟩ huuid)]
    exact ⟨rfl, rfl⟩
  · unfold patchItem
    simp only [hf]
    rw [if_pos (validateItem_mk ⟨it.id, it.createdAt, now, jmerge it.payload body⟩ huuid)]
    exact ⟨rfl, rfl⟩
  · intro v hv
    rw [jget_merge, hv]

/-- CLAIM C5 witness: the theorem applied to the one-card store with a
body that overwrites authorToken, with no token supplied anywhere. -/
theorem c5_witness :
    (deleteItem exCardDb uuidB).status = 200 ∧
    (deleteItem exCardDb uuidB).db.items = exCardDb.items.eraseIdx 0 ∧
    (putItem exCardDb uuidB [("authorToken", JsonVal.str "hijacked")] tsB).status = 200 ∧
    (putItem exCardDb uuidB [("authorToken", JsonVal.str "hijacked")] tsB).db.items =
      exCardDb.items.set 0 ⟨uuidB, tsA, tsB, [("authorToken", JsonVal.str "hijacked")]⟩ ∧
    jget (jmerge exCardItem.payload [("authorToken", JsonVal.str "hijacked")]) "authorToken" =
      some (JsonVal.str "hijacked") := by
  have h := c5_theorem exCardDb 0 exCardItem [("authorToken", JsonVal.str "hijacked")] tsB
    rfl (by decide) (Or.inr (by decide))
  exact ⟨h.1.1, h.1.2, h.2.1.1, h.2.1.2, h.2.2.2 _ rfl⟩

/-- CLAIM C6 (confirmed): the GET /cards visibility filter gives an
admin every userCard item unfiltered; a non-admin caller in the default
view exactly the userCard items whose stored authorToken strictly equals
the callers token; and a non-admin caller with onlyPublic=true exactly
the userCard items with isPublic strictly equal to true.  The response
total counts the visible set and every data entry is the view of a
visible item. -/
theorem c6_theorem (db : Db) (requester adminHeader : String) (adminEnv : Option String)
    (onlyPublic : Option String) (pg lim : Option Int) :
    (cardsVisible db requester true onlyPublic =
      db.items.filter (fun i => kindIs i "userCard")) ∧
    (onlyPublicRequested onlyPublic = false →
      cardsVisible db requester false onlyPublic =
        db.items.filter (fun i => kindIs i "userCard" &&
          strValIs (jget i.payload "authorToken") requester)) ∧
    (onlyPublicRequested onlyPublic = true →
      cardsVisible db requester false onlyPublic =
        db.items.filter (fun i => kindIs i "userCard" &&
          boolValIs (jget i.payload "isPublic") true)) ∧
    (getCards db requester adminEnv adminHeader onlyPublic pg lim).total =
      (cardsVisible db requester (isAdmin adminEnv adminHeader) onlyPublic).length ∧
    (∀ e ∈ (getCards db requester adminEnv adminHeader onlyPublic pg lim).data,
      ∃ i ∈ cardsVisible db requester (isAdmin adminEnv adminHeader) onlyPublic,
        e = cardView requester i) := by
  refine ⟨?_, ?_, ?_, ?_, ?_⟩
  · unfold cardsVisible
    rw [if_pos rfl]
  · intro hp
    unfold cardsVisible
    rw [if_neg (by simp), if_neg (by simp [hp])]
    rw [List.filter_filter]
    refine List.filter_congr ?_
    intro i _
    rw [Bool.and_comm]
  · intro hp
    unfold cardsVisible
    rw [if_neg (by simp), if_pos (by simp [hp])]
    rw [List.filter_filter]
    refine List.filter_congr ?_
    intro i _
    rw [Bool.and_comm]
  · unfold getCards
    rw [paginate_total, length_sortByDateDesc]
  · intro e he
    obtain ⟨i, hi, rfl⟩ := List.mem_map.mp he
    obtain hi2 := mem_paginate_data _ pg lim i hi
    rw [mem_sortByDateDesc] at hi2
    exact ⟨i, hi2, rfl⟩

/-- CLAIM C6 witness: the visibility characterizations applied to the
two-card store (a private card owned by tokA and a public card owned by
tokB); in particular the default view for tokA and the public view for
tokB, and - on the one-private-card store - the empty public view of the
specification scenario. -/
theorem c6_witness :
    cardsVisible exCardsDb tokB false (some "true") =
      List.filter (fun i => kindIs i "userCard" && boolValIs (jget i.payload "isPublic") true)
        exCardsDb.items ∧
    cardsVisible exCardsDb tokA false none =
      List.filter (fun i => kindIs i "userCard" &&
        strValIs (jget i.payload "authorToken") tokA) exCardsDb.items ∧
    cardsVisible exCardsDb tokA true none =
      List.filter (fun i => kindIs i "userCard") exCardsDb.items ∧
    cardsVisible exCardDb tokB false (some "true") = [] ∧
    (getCards exCardsDb tokB none "" (some "true") none none).total =
      (cardsVisible exCardsDb tokB (isAdmin none "") (some "true")).length := by
  have h1 := c6_theorem exCardsDb tokB "" none (some "true") none none
  have h2 := c6_theorem exCardsDb tokA "" none none none none
  have h3 := c6_theorem exCardDb tokB "" none (some "true") none none
  exact ⟨h1.2.2.1 rfl, h2.2.1 rfl, h2.1, (h3.2.2.1 rfl).trans rfl, h1.2.2.2.1⟩

/-- Lookup in a singleton object. -/
theorem jget_single (k k1 : String) (v : JsonVal) :
    jget [(k1, v)] k = if k = k1 then some v else none := by
  rw [jget_cons]
  by_cases h : k = k1 <;> simp [h, jget_nil]

/-- Lookup after pinning one field by a singleton spread. -/
theorem jget_pin (a : Obj) (k k1 : String) (v : JsonVal) :
    jget (jmerge a [(k1, v)]) k = if k = k1 then some v else jget a k := by
  rw [jget_merge, jget_single]
  by_cases h : k = k1
  · rw [if_pos h, if_pos h]
  · rw [if_neg h, if_neg h]

/-- Lookup after pinning two fields by a two-element spread. -/
theorem jget_pin2 (a : Obj) (k k1 k2 : String) (v1 v2 : JsonVal) :
    jget (jmerge a [(k1, v1), (k2, v2)]) k =
      if k = k1 then some v1 else if k = k2 then some v2 else jget a k := by
  rw [jget_merge, jget_cons, jget_single]
  by_cases h1 : k = k1
  · rw [if_pos h1, if_pos h1]
  · rw [if_neg h1, if_neg h1]
    by_cases h2 : k = k2
    · rw [if_pos h2, if_pos h2]
    · rw [if_neg h2, if_neg h2]

/-- CLAIM C7 counterexample: a successful owner PATCH on a comment whose
body tries to overwrite authorToken stores the pinned owner token, while
the shallow-merge-then-pin-kind formula of the claim would store the
body value, so the stored payload is not the claimed shallow merge. -/
theorem c7_counterexample :
    (patchComment exCommentDb tokA uuidA
        [("authorToken", JsonVal.str tokB), ("message", JsonVal.str "hello")] tsB).status
      = 200 ∧
    ((patchComment exCommentDb tokA uuidA
        [("authorToken", JsonVal.str tokB), ("message", JsonVal.str "hello")] tsB).db.items.map
      (fun i => strValIs (jget i.payload "authorToken") tokA)) = [true] ∧
    strValIs (jget (specShallowPatch exCommentPayload
        [("authorToken", JsonVal.str tokB), ("message", JsonVal.str "hello")] "comment")
      "authorToken") tokB = true ∧
    tokA ≠ tokB := by
  exact ⟨by decide, by decide, by decide, by decide⟩

/-- CLAIM C7 (amended): the payload stored by PATCH on a typed resource
is the shallow merge of the stored payload with the body - each
top-level field present in the body replaces the stored field wholesale,
nested objects are not deep-merged - with the kind discriminator pinned
to the resource kind afterwards, EXCEPT that the comment and card merges
also pin authorToken (the comment merge to the callers token, which
ownership checking has equated with the stored one; the card merge to
the stored value), and the card merge additionally normalizes a falsy
merged imageUrl to null.  Stated as the complete field-by-field lookup
characterization of the three merge functions the PATCH handlers
store. -/
theorem c7_amended (stored body : Obj) (token : String) (k : String) :
    jget (taskMergedOf stored body) k =
      (if k = "kind" then some (JsonVal.str "task")
       else match jget body k with
            | some v => some v
            | none => jget stored k) ∧
    jget (commentMergedOf stored body token) k =
      (if k = "kind" then some (JsonVal.str "comment")
       else if k = "authorToken" then some (JsonVal.str token)
       else match jget body k with
            | some v => some v
            | none => jget stored k) ∧
    jget (cardMergedOf stored body) k =
      (if k = "kind" then some (JsonVal.str "userCard")
       else if k = "authorToken" then jget stored "authorToken"
       else if k = "imageUrl" then
         (match (match jget body "imageUrl" with
                 | some v => some v
                 | none => jget stored "imageUrl") with
          | some v => if v.truthy then some v else some JsonVal.null
          | none => some JsonVal.null)
       else match jget body k with
            | some v => some v
            | none => jget stored k) := by
  have hbase : ∀ k', jget (jmerge (jmerge stored body) [("kind", JsonVal.str "userCard")]) k' =
      if k' = "kind" then some (JsonVal.str "userCard")
      else match jget body k' with
           | some v => some v
           | none => jget stored k' := by
    intro k'
    rw [jget_pin, jget_merge]
  have hbase2 : ∀ k',
      jget ((match jget stored "authorToken" with
             | some v => jmerge (jmerge (jmerge stored body) [("kind", JsonVal.str "userCard")])
                 [("authorToken", v)]
             | none => jerase (jmerge (jmerge stored body) [("kind", JsonVal.str "userCard")])
                 "authorToken") : Obj) k' =
        if k' = "authorToken" then jget stored "authorToken"
        else jget (jmerge (jmerge stored body) [("kind", JsonVal.str "userCard")]) k' := by
    intro k'
    cases hat : jget stored "authorToken" with
    | none => rw [jget_jerase]
    | some v => rw [jget_pin]
  have hB : ∀ k',
      jget ((match jget stored "authorToken" with
             | some v => jmerge (jmerge (jmerge stored body) [("kind", JsonVal.str "userCard")])
                 [("authorToken", v)]
             | none => jerase (jmerge (jmerge stored body) [("kind", JsonVal.str "userCard")])
                 "authorToken") : Obj) k' =
        if k' = "authorToken" then jget stored "authorToken"
        else if k' = "kind" then some (JsonVal.str "userCard")
        else match jget body k' with
             | some v => some v
             | none => jget stored k' := by
    intro k'
    rw [hbase2 k']
    by_cases h : k' = "authorToken"
    · rw [if_pos h, if_pos h]
    · rw [if_neg h, if_neg h, hbase k']
  refine ⟨?_, ?_, ?_⟩
  · unfold taskMergedOf
    rw [jget_pin, jget_merge]
  · unfold commentMergedOf
    rw [jget_pin2, jget_merge]
  · unfold cardMergedOf
    simp only []
    by_cases him : optTruthy (jget ((match jget stored "authorToken" with
        | some v => jmerge (jmerge (jmerge stored body) [("kind", JsonVal.str "userCard")])
            [("authorToken", v)]
        | none => jerase (jmerge (jmerge stored body) [("kind", JsonVal.str "userCard")])
            "authorToken") : Obj) "imageUrl") = true
    · rw [if_pos him]
      rw [hB k]
      by_cases hat : k = "authorToken"
      · subst hat
        rw [if_pos rfl, if_neg (by decide), if_pos rfl]
      · rw [if_neg hat]
        by_cases hk : k = "kind"
        · subst hk
          rw [if_pos rfl, if_pos rfl]
        · rw [if_neg hk, if_neg hk]
          by_cases hiu : k = "imageUrl"
          · subst hiu
            rw [if_pos rfl]
            have hm := hB "imageUrl"
            rw [if_neg (by decide), if_neg (by decide)] at hm
            rw [hm] at him
            cases hmv : (match jget body "imageUrl" with
                | some v => some v
                | none => jget stored "imageUrl") with
            | none =>
              rw [hmv] at him
              exact absurd him (by decide)
            | some v =>
              rw [hmv] at him
              replace him : v.truthy = true := him
              show some v = if v.truthy then some v else some JsonVal.null
              rw [him]
              rfl
          · rw [if_neg hat, if_neg hiu]
    · rw [if_neg him]
      rw [jget_pin]
      by_cases hiu : k = "imageUrl"
      · subst hiu
        rw [if_pos rfl, if_neg (by decide), if_neg (by decide), if_pos rfl]
        have hm := hB "imageUrl"
        rw [if_neg (by decide), if_neg (by decide)] at hm
        rw [hm] at him
        cases hmv : (match jget body "imageUrl" with
            | some v => some v
            | none => jget stored "imageUrl") with
        | none => rfl
        | some v =>
          rw [hmv] at him
          have him2 : v.truthy = false := by
            cases hvt : v.truthy
            · rfl
            · exact absurd hvt him
          show some JsonVal.null = if v.truthy then some v else some JsonVal.null
          rw [him2]
          rfl
      · rw [if_neg hiu]
        rw [hB k]
        by_cases hat : k = "authorToken"
        · subst hat
          rw [if_pos rfl, if_neg (by decide), if_pos rfl]
        · rw [if_neg hat]
          by_cases hk : k = "kind"
          · subst hk
            rw [if_pos rfl, if_pos rfl]
          · rw [if_neg hk, if_neg hk, if_neg hat, if_neg hiu]

/-- Distinct ids survive every one of the four id-column shapes, given a
fresh generated id. -/
theorem nodup_of_preservesIds (db : Db) (newId : String) (r : HResp)
    (h : preservesIds db newId r) (hN : (idsOf db.items).Nodup)
    (hfresh : newId ∉ idsOf db.items) : (idsOf r.db.items).Nodup := by
  rcases h with h | ⟨idx, old, merged, hget, hid, h⟩ | ⟨idx, h⟩ | ⟨it, hid, h⟩
  · rw [h]; exact hN
  · rw [h, idsOf_set db.items idx old merged hget hid]; exact hN
  · rw [h]; exact idsOf_eraseIdx_nodup _ _ hN
  · rw [h]
    refine idsOf_append_nodup _ _ hN ?_
    rw [hid]
    exact hfresh

/-- POST /items only appends the freshly generated id. -/
theorem postItem_preservesIds (db : Db) (body : Obj) (now newId : String) :
    preservesIds db newId (postItem db body now newId) := by
  by_cases hv : validateItem (Item.toJson ⟨newId, now, now, body⟩) = true
  · unfold postItem
    rw [if_pos hv]
    exact Or.inr (Or.inr (Or.inr ⟨⟨newId, now, now, body⟩, rfl, rfl⟩))
  · unfold postItem
    rw [if_neg hv]
    exact Or.inl rfl

/-- POST /tasks only appends the freshly generated id. -/
theorem postTask_preservesIds (db : Db) (body : Obj) (now newId : String) :
    preservesIds db newId (postTask db body now newId) := by
  unfold postTask
  by_cases h1 : (!validateTaskPayload (taskDefaulted body)) = true
  · rw [if_pos h1]
    exact Or.inl rfl
  · rw [if_neg h1]
    by_cases h2 : validateItem (Item.toJson ⟨newId, now, now, taskDefaulted body⟩) = true
    · rw [if_pos h2]
      exact Or.inr (Or.inr (Or.inr ⟨⟨newId, now, now, taskDefaulted body⟩, rfl, rfl⟩))
    · rw [if_neg h2]
      exact Or.inl rfl

/-- POST /comments only appends the freshly generated id. -/
theorem postComment_preservesIds (db : Db) (token : String) (body : Obj) (now newId : String) :
    preservesIds db newId (postComment db token body now newId) := by
  unfold postComment
  by_cases h1 : (decide (token = "") || decide (token.length < 16)) = true
  · rw [if_pos h1]
    exact Or.inl rfl
  · rw [if_neg h1]
    by_cases h2 : (!validateCommentPayload (commentCreatePayload body token)) = true
    · rw [if_pos h2]
      exact Or.inl rfl
    · rw [if_neg h2]
      by_cases h3 : (!validateItem (Item.toJson
          ⟨newId, now, now, commentCreatePayload body token⟩)) = true
      · rw [if_pos h3]
        exact Or.inl rfl
      · rw [if_neg h3]
        exact Or.inr (Or.inr (Or.inr ⟨⟨newId, now, now, commentCreatePayload body token⟩, rfl, rfl⟩))

/-- POST /cards only appends the freshly generated id. -/
theorem postCard_preservesIds (db : Db) (token : String) (body : Obj) (now newId : String) :
    preservesIds db newId (postCard db token body now newId) := by
  unfold postCard
  by_cases h1 : (decide (token = "") || decide (token.length < 16)) = true
  · rw [if_pos h1]
    exact Or.inl rfl
  · rw [if_neg h1]
    by_cases h2 : (!validateCardPayload (cardCreatePayload body token)) = true
    · rw [if_pos h2]
      exact Or.inl rfl
    · rw [if_neg h2]
      by_cases h3 : (!validateItem (Item.toJson
          ⟨newId, now, now, cardCreatePayload body token⟩)) = true
      · rw [if_pos h3]
        exact Or.inl rfl
      · rw [if_neg h3]
        exact Or.inr (Or.inr (Or.inr ⟨⟨newId, now, now, cardCreatePayload body token⟩, rfl, rfl⟩))

/-- PUT /items/:id only rewrites the found position, keeping its id. -/
theorem putItem_preservesIds (db : Db) (id : String) (body : Obj) (now newId : String) :
    preservesIds db newId (putItem db id body now) := by
  cases hf : findWithIdx (itemIdPred id) db.items with
  | none =>
    unfold putItem
    simp only [hf]
    exact Or.inl rfl
  | some r =>
    rcases r with ⟨idx, old⟩
    by_cases hv : validateItem (Item.toJson ⟨old.id, old.createdAt, now, body⟩) = true
    · unfold putItem
      simp only [hf]
      rw [if_pos hv]
      exact Or.inr (Or.inl ⟨idx, old, ⟨old.id, old.createdAt, now, body⟩,
        (findWithIdx_some _ _ _ _ hf).1, rfl, rfl⟩)
    · unfold putItem
      simp only [hf]
      rw [if_neg hv]
      exact Or.inl rfl

/-- PATCH /items/:id only rewrites the found position, keeping its id. -/
theorem patchItem_preservesIds (db : Db) (id : String) (body : Obj) (now newId : String) :
    preservesIds db newId (patchItem db id body now) := by
  cases hf : findWithIdx (itemIdPred id) db.items with
  | none =>
    unfold patchItem
    simp only [hf]
    exact Or.inl rfl
  | some r =>
    rcases r with ⟨idx, old⟩
    by_cases hv : validateItem
        (Item.toJson ⟨old.id, old.createdAt, now, jmerge old.payload body⟩) = true
    · unfold patchItem
      simp only [hf]
      rw [if_pos hv]
      exact Or.inr (Or.inl ⟨idx, old, ⟨old.id, old.createdAt, now, jmerge old.payload body⟩,
        (findWithIdx_some _ _ _ _ hf).1, rfl, rfl⟩)
    · unfold patchItem
      simp only [hf]
      rw [if_neg hv]
      exact Or.inl rfl

/-- PUT /tasks/:id only rewrites the found position, keeping its id. -/
theorem putTask_preservesIds (db : Db) (id : String) (body : Obj) (now newId : String) :
    preservesIds db newId (putTask db id body now) := by
  cases hf : findWithIdx (taskPred id) db.items with
  | none =>
    unfold putTask
    simp only [hf]
    exact Or.inl rfl
  | some r =>
    rcases r with ⟨idx, old⟩
    unfold putTask
    simp only [hf]
    by_cases h1 : (!validateTaskPayload (taskDefaulted body)) = true
    · rw [if_pos h1]
      exact Or.inl rfl
    · rw [if_neg h1]
      by_cases h2 : validateItem (Item.toJson ⟨old.id, old.createdAt, now, taskDefaulted body⟩) = true
      · rw [if_pos h2]
        exact Or.inr (Or.inl ⟨idx, old, ⟨old.id, old.createdAt, now, taskDefaulted body⟩,
          (findWithIdx_some _ _ _ _ hf).1, rfl, rfl⟩)
      · rw [if_neg h2]
        exact Or.inl rfl

/-- PATCH /tasks/:id only rewrites the found position, keeping its id. -/
theorem patchTask_preservesIds (db : Db) (id : String) (body : Obj) (now newId : String) :
    preservesIds db newId (patchTask db id body now) := by
  cases hf : findWithIdx (taskPred id) db.items with
  | none =>
    unfold patchTask
    simp only [hf]
    exact Or.inl rfl
  | some r =>
    rcases r with ⟨idx, old⟩
    unfold patchTask
    simp only [hf]
    by_cases h1 : (!validateTaskPayload (taskMergedOf old.payload body)) = true
    · rw [if_pos h1]
      exact Or.inl rfl
    · rw [if_neg h1]
      by_cases h2 : validateItem
          (Item.toJson ⟨old.id, old.createdAt, now, taskMergedOf old.payload body⟩) = true
      · rw [if_pos h2]
        exact Or.inr (Or.inl ⟨idx, old, ⟨old.id, old.createdAt, now, taskMergedOf old.payload body⟩,
          (findWithIdx_some _ _ _ _ hf).1, rfl, rfl⟩)
      · rw [if_neg h2]
        exact Or.inl rfl

/-- PATCH /comments/:id only rewrites the found position, keeping its
id. -/
theorem patchComment_preservesIds (db : Db) (token id : String) (body : Obj) (now newId : String) :
    preservesIds db newId (patchComment db token id body now) := by
  by_cases h1 : (decide (token = "") || decide (token.length < 16)) = true
  · unfold patchComment
    rw [if_pos h1]
    exact Or.inl rfl
  · cases hf : findWithIdx (commentPred id) db.items with
    | none =>
      unfold patchComment
      rw [if_neg h1]
      simp only [hf]
      exact Or.inl rfl
    | some r =>
      rcases r with ⟨idx, old⟩
      unfold patchComment
      rw [if_neg h1]
      simp only [hf]
      by_cases h2 : (!strValIs (jget old.payload "authorToken") token) = true
      · rw [if_pos h2]
        exact Or.inl rfl
      · rw [if_neg h2]
        by_cases h3 : (!validateCommentPayload (commentMergedOf old.payload body token)) = true
        · rw [if_pos h3]
          exact Or.inl rfl
        · rw [if_neg h3]
          by_cases h4 : (!validateItem (Item.toJson
              ⟨old.id, old.createdAt, now, commentMergedOf old.payload body token⟩)) = true
          · rw [if_pos h4]
            exact Or.inl rfl
          · rw [if_neg h4]
            exact Or.inr (Or.inl ⟨idx, old,
              ⟨old.id, old.createdAt, now, commentMergedOf old.payload body token⟩,
              (findWithIdx_some _ _ _ _ hf).1, rfl, rfl⟩)

/-- PATCH /cards/:id only rewrites the found position, keeping its id. -/
theorem patchCard_preservesIds (db : Db) (token : String) (adminEnv : Option String)
    (adminHeader : String) (id : String) (body : Obj) (now newId : String) :
    preservesIds db newId (patchCard db token adminEnv adminHeader id body now) := by
  by_cases h1 : (decide (token = "") && !(isAdmin adminEnv adminHeader)) = true
  · unfold patchCard
    rw [if_pos h1]
    exact Or.inl rfl
  · cases hf : findWithIdx (cardPred id) db.items with
    | none =>
      unfold patchCard
      rw [if_neg h1]
      simp only [hf]
      exact Or.inl rfl
    | some r =>
      rcases r with ⟨idx, old⟩
      unfold patchCard
      rw [if_neg h1]
      simp only [hf]
      by_cases h2 : (!strValIs (jget old.payload "authorToken") token &&
          !(isAdmin adminEnv adminHeader)) = true
      · rw [if_pos h2]
        exact Or.inl rfl
      · rw [if_neg h2]
        by_cases h3 : (!validateCardPayload (cardMergedOf old.payload body)) = true
        · rw [if_pos h3]
          exact Or.inl rfl
        · rw [if_neg h3]
          by_cases h4 : (!validateItem (Item.toJson
              ⟨old.id, old.createdAt, now, cardMergedOf old.payload body⟩)) = true
          · rw [if_pos h4]
            exact Or.inl rfl
          · rw [if_neg h4]
            exact Or.inr (Or.inl ⟨idx, old,
              ⟨old.id, old.createdAt, now, cardMergedOf old.payload body⟩,
              (findWithIdx_some _ _ _ _ hf).1, rfl, rfl⟩)

/-- DELETE /items/:id only removes the found position. -/
theorem deleteItem_preservesIds (db : Db) (id newId : String) :
    preservesIds db newId (deleteItem db id) := by
  cases hf : findWithIdx (itemIdPred id) db.items with
  | none =>
    unfold deleteItem
    simp only [hf]
    exact Or.inl rfl
  | some r =>
    rcases r with ⟨idx, old⟩
    unfold deleteItem
    simp only [hf]
    exact Or.inr (Or.inr (Or.inl ⟨idx, rfl⟩))

/-- DELETE /comments/:id only removes the found position. -/
theorem deleteComment_preservesIds (db : Db) (token id newId : String) :
    preservesIds db newId (deleteComment db token id) := by
  by_cases h1 : (decide (token = "") || decide (token.length < 16)) = true
  · unfold deleteComment
    rw [if_pos h1]
    exact Or.inl rfl
  · cases hf : findWithIdx (commentPred id) db.items with
    | none =>
      unfold deleteComment
      rw [if_neg h1]
      simp only [hf]
      exact Or.inl rfl
    | some r =>
      rcases r with ⟨idx, old⟩
      unfold deleteComment
      rw [if_neg h1]
      simp only [hf]
      by_cases h2 : (!strValIs (jget old.payload "authorToken") token) = true
      · rw [if_pos h2]
        exact Or.inl rfl
      · rw [if_neg h2]
        exact Or.inr (Or.inr (Or.inl ⟨idx, rfl⟩))

/-- DELETE /cards/:id only removes the found position. -/
theorem deleteCard_preservesIds (db : Db) (token : String) (adminEnv : Option String)
    (adminHeader : String) (id newId : String) :
    preservesIds db newId (deleteCard db token adminEnv adminHeader id) := by
  by_cases h1 : (decide (token = "") && !(isAdmin adminEnv adminHeader)) = true
  · unfold deleteCard
    rw [if_pos h1]
    exact Or.inl rfl
  · cases hf : findWithIdx (cardPred id) db.items with
    | none =>
      unfold deleteCard
      rw [if_neg h1]
      simp only [hf]
      exact Or.inl rfl
    | some r =>
      rcases r with ⟨idx, old⟩
      unfold deleteCard
      rw [if_neg h1]
      simp only [hf]
      by_cases h2 : (!strValIs (jget old.payload "authorToken") token &&
          !(isAdmin adminEnv adminHeader)) = true
      · rw [if_pos h2]
        exact Or.inl rfl
      · rw [if_neg h2]
        exact Or.inr (Or.inr (Or.inl ⟨idx, rfl⟩))

/-- POST /import stores the incoming items wholesale when they all pass
envelope validation, and otherwise changes nothing. -/
theorem postImport_items (db : Db) (incoming : List Item) (metaIn : Obj) (now : String) :
    (postImport db incoming metaIn now).db.items = incoming ∨
    (postImport db incoming metaIn now).db.items = db.items := by
  unfold postImport
  by_cases hv : (incoming.all (fun it => validateItem it.toJson)) = true
  · rw [if_pos hv]
    exact Or.inl rfl
  · rw [if_neg hv]
    exact Or.inr rfl

/-- CLAIM C9 counterexample: POST /import validates each incoming item
against the envelope schema only and never checks id uniqueness, so
importing two envelope-valid items that share one uuid succeeds (200)
and leaves a store whose id column is not pairwise distinct, starting
from a store whose id column was distinct. -/
theorem c9_counterexample :
    (idsOf (⟨[], []⟩ : Db).items).Nodup ∧
    (postImport ⟨[], []⟩ [exCommentItem, exCommentItem] [] tsB).status = 200 ∧
    ¬ (idsOf (postImport ⟨[], []⟩ [exCommentItem, exCommentItem] [] tsB).db.items).Nodup := by
  exact ⟨by decide, by decide, by decide⟩

/-- CLAIM C9 (amended): starting from a store with pairwise distinct
ids, every create (POST /items, /tasks, /comments, /cards, under the
hypothesis that the generated id is fresh), every update (PUT and PATCH
on items, tasks, comments and cards) and every delete preserves pairwise
distinctness of the id column; POST /import preserves it only under the
additional hypothesis that the caller-supplied items already have
pairwise distinct ids - the handler itself never checks uniqueness, as
the counterexample shows. -/
theorem c9_amended (db : Db) (body : Obj) (token now newId id : String)
    (adminEnv : Option String) (adminHeader : String) (incoming : List Item) (metaIn : Obj)
    (hN : (idsOf db.items).Nodup) (hfresh : newId ∉ idsOf db.items)
    (hInc : (idsOf incoming).Nodup) :
    (idsOf (postItem db body now newId).db.items).Nodup ∧
    (idsOf (postTask db body now newId).db.items).Nodup ∧
    (idsOf (postComment db token body now newId).db.items).Nodup ∧
    (idsOf (postCard db token body now newId).db.items).Nodup ∧
    (idsOf (putItem db id body now).db.items).Nodup ∧
    (idsOf (patchItem db id body now).db.items).Nodup ∧
    (idsOf (putTask db id body now).db.items).Nodup ∧
    (idsOf (patchTask db id body now).db.items).Nodup ∧
    (idsOf (patchComment db token id body now).db.items).Nodup ∧
    (idsOf (patchCard db token adminEnv adminHeader id body now).db.items).Nodup ∧
    (idsOf (deleteItem db id).db.items).Nodup ∧
    (idsOf (deleteComment db token id).db.items).Nodup ∧
    (idsOf (deleteCard db token adminEnv adminHeader id).db.items).Nodup ∧
    (idsOf (postImport db incoming metaIn now).db.items).Nodup := by
  refine ⟨nodup_of_preservesIds _ _ _ (postItem_preservesIds db body now newId) hN hfresh,
    nodup_of_preservesIds _ _ _ (postTask_preservesIds db body now newId) hN hfresh,
    nodup_of_preservesIds _ _ _ (postComment_preservesIds db token body now newId) hN hfresh,
    nodup_of_preservesIds _ _ _ (postCard_preservesIds db token body now newId) hN hfresh,
    nodup_of_preservesIds _ _ _ (putItem_preservesIds db id body now newId) hN hfresh,
    nodup_of_preservesIds _ _ _ (patchItem_preservesIds db id body now newId) hN hfresh,
    nodup_of_preservesIds _ _ _ (putTask_preservesIds db id body now newId) hN hfresh,
    nodup_of_preservesIds _ _ _ (patchTask_preservesIds db id body now newId) hN hfresh,
    nodup_of_preservesIds _ _ _ (patchComment_preservesIds db token id body now newId) hN hfresh,
    nodup_of_preservesIds _ _ _
      (patchCard_preservesIds db token adminEnv adminHeader id body now newId) hN hfresh,
    nodup_of_preservesIds _ _ _ (deleteItem_preservesIds db id newId) hN hfresh,
    nodup_of_preservesIds _ _ _ (deleteComment_preservesIds db token id newId) hN hfresh,
    nodup_of_preservesIds _ _ _
      (deleteCard_preservesIds db token adminEnv adminHeader id newId) hN hfresh, ?_⟩
  rcases postImport_items db incoming metaIn now with h | h
  · rw [h]; exact hInc
  · rw [h]; exact hN

/-- CLAIM C9 witness: the amended theorem applied to the one-comment
store with a fresh uuid, a valid comment creation and an import of the
one-card list. -/
theorem c9_witness :
    (idsOf (postComment exCommentDb tokA
      [("imdbID", JsonVal.str "tt0111161"), ("name", JsonVal.str "Bo"),
       ("message", JsonVal.str "Fine")] tsB uuidB).db.items).Nodup ∧
    (idsOf (deleteComment exCommentDb tokA uuidA).db.items).Nodup ∧
    (idsOf (postImport exCommentDb [exCardItem] [] tsB).db.items).Nodup := by
  have h := c9_amended exCommentDb
    [("imdbID", JsonVal.str "tt0111161"), ("name", JsonVal.str "Bo"),
     ("message", JsonVal.str "Fine")]
    tokA tsB uuidB uuidA none "" [exCardItem] []
    (by decide) (by decide) (by decide)
  exact ⟨h.2.2.1, h.2.2.2.2.2.2.2.2.2.2.2.1, h.2.2.2.2.2.2.2.2.2.2.2.2.2⟩

/-- Required errors of the comment schema are among the comment payload
errors. -/
theorem mem_commentErrors_of_required (o : Obj) (e : AjvError)
    (he : e ∈ requiredCheck o commentRequired) : e ∈ commentPayloadErrors o := by
  unfold commentPayloadErrors
  exact List.mem_append_left _ (List.mem_append_left _ (List.mem_append_left _
    (List.mem_append_left _ (List.mem_append_left _ (List.mem_append_left _
      (List.mem_append_right _ he))))))

/-- Message minLength errors are among the comment payload errors. -/
theorem mem_commentErrors_of_message (o : Obj) (e : AjvError)
    (he : e ∈ strMinLenCheck o "message" 2) : e ∈ commentPayloadErrors o := by
  unfold commentPayloadErrors
  exact List.mem_append_left _ (List.mem_append_left _ (List.mem_append_right _ he))

/-- A field the body leaves out is also missing from the constructed
comment payload, for the three non-defaulted required fields. -/
theorem commentCreatePayload_missing (body : Obj) (token f : String)
    (hf : f = "imdbID" ∨ f = "name" ∨ f = "message") (hb : jhas body f = false) :
    jhas (commentCreatePayload body token) f = false := by
  unfold commentCreatePayload
  unfold jhas at *
  rw [jget_pin]
  have hfa : ¬ f = "authorToken" := by rcases hf with rfl | rfl | rfl <;> decide
  rw [if_neg hfa, jget_merge]
  cases hbv : jget body f with
  | some v =>
    rw [hbv] at hb
    simp at hb
  | none => rcases hf with rfl | rfl | rfl <;> rfl

/-- The message field of the constructed comment payload is the message
field of the body when supplied. -/
theorem commentCreatePayload_message (body : Obj) (token : String) (v : JsonVal)
    (hv : jget body "message" = some v) :
    jget (commentCreatePayload body token) "message" = some v := by
  unfold commentCreatePayload
  rw [jget_pin, if_neg (by decide), jget_merge, hv]

/-- A payload with at least one schema error fails validation. -/
theorem validateComment_false_of_mem (o : Obj) (e : AjvError)
    (he : e ∈ commentPayloadErrors o) : (!validateCommentPayload o) = true := by
  have hne := List.ne_nil_of_mem he
  unfold validateCommentPayload
  cases herr : commentPayloadErrors o with
  | nil => exact absurd herr hne
  | cons a t => rfl

/-- A valid token and an invalid constructed payload send POST /comments
to the 400 branch with the formatted error body and no store change. -/
theorem postComment_invalid (db : Db) (token : String) (body : Obj) (now newId : String)
    (htok : 16 ≤ token.length)
    (hbad : (!validateCommentPayload (commentCreatePayload body token)) = true) :
    postComment db token body now newId =
      ⟨400, validationErrorBody (commentPayloadErrors (commentCreatePayload body token)),
        db⟩ := by
  unfold postComment
  rw [authCheck_pass token htok, if_pos hbad]
  rfl

/-- CLAIM C10 (confirmed): when the constructed comment payload violates
its schema, POST /comments answers 400 and the errors list of the
response enumerates every violated constraint, not only the first, as
field, message, code triples: every missing required field among imdbID,
name and message contributes its triple with field the missing property
name and code required, and a too-short message string contributes its
triple with field the last path segment message and code minLength -
simultaneously, within the same response. -/
theorem c10_theorem (db : Db) (token now newId : String) (body : Obj)
    (htok : 16 ≤ token.length) :
    (∀ f, f ∈ (["imdbID", "name", "message"] : List String) → jhas body f = false →
      (postComment db token body now newId).status = 400 ∧
      fieldErrorToJson ⟨f, "must have required property " ++ f, "required"⟩ ∈
        respErrors (postComment db token body now newId).body) ∧
    (∀ s, jget body "message" = some (JsonVal.str s) → s.length < 2 →
      (postComment db token body now newId).status = 400 ∧
      fieldErrorToJson ⟨"message", "must NOT have fewer than " ++ toString 2 ++ " characters",
        "minLength"⟩ ∈ respErrors (postComment db token body now newId).body) := by
  constructor
  · intro f hf hb
    replace hf : f = "imdbID" ∨ f = "name" ∨ f = "message" := by simpa using hf
    have hmiss := commentCreatePayload_missing body token f hf hb
    have herr : (⟨"", "required", "must have required property " ++ f, some f⟩ : AjvError) ∈
        commentPayloadErrors (commentCreatePayload body token) :=
      mem_commentErrors_of_required _ _
        (requiredCheck_mem _ _ f (by rcases hf with rfl | rfl | rfl <;> decide) hmiss)
    have hbad := validateComment_false_of_mem _ _ herr
    rw [postComment_invalid db token body now newId htok hbad]
    refine ⟨rfl, ?_⟩
    refine List.mem_map.mpr
      ⟨⟨f, "must have required property " ++ f, "required"⟩, ?_, rfl⟩
    refine List.mem_map.mpr
      ⟨⟨"", "required", "must have required property " ++ f, some f⟩, herr, ?_⟩
    rcases hf with rfl | rfl | rfl <;> rfl
  · intro s hs hlen
    have hmsg := commentCreatePayload_message body token (JsonVal.str s) hs
    have herr : (⟨"/" ++ "message", "minLength",
        "must NOT have fewer than " ++ toString 2 ++ " characters", none⟩ : AjvError) ∈
        commentPayloadErrors (commentCreatePayload body token) :=
      mem_commentErrors_of_message _ _ (strMinLenCheck_mem _ "message" 2 s hmsg hlen)
    have hbad := validateComment_false_of_mem _ _ herr
    rw [postComment_invalid db token body now newId htok hbad]
    refine ⟨rfl, ?_⟩
    refine List.mem_map.mpr
      ⟨⟨"message", "must NOT have fewer than " ++ toString 2 ++ " characters",
        "minLength"⟩, ?_, rfl⟩
    refine List.mem_map.mpr
      ⟨⟨"/" ++ "message", "minLength",
        "must NOT have fewer than " ++ toString 2 ++ " characters", none⟩, herr, ?_⟩
    rfl

/-- CLAIM C10 witness: a POST /comments whose body misses imdbID and
name and carries the one-character message x; the theorem yields all
three error triples inside the one 400 response. -/
theorem c10_witness :
    (postComment exCommentDb tokA [("message", JsonVal.str "x")] tsB uuidB).status = 400 ∧
    fieldErrorToJson ⟨"imdbID", "must have required property " ++ "imdbID", "required"⟩ ∈
      respErrors (postComment exCommentDb tokA [("message", JsonVal.str "x")] tsB uuidB).body ∧
    fieldErrorToJson ⟨"name", "must have required property " ++ "name", "required"⟩ ∈
      respErrors (postComment exCommentDb tokA [("message", JsonVal.str "x")] tsB uuidB).body ∧
    fieldErrorToJson ⟨"message", "must NOT have fewer than " ++ toString 2 ++ " characters",
        "minLength"⟩ ∈
      respErrors (postComment exCommentDb tokA [("message", JsonVal.str "x")] tsB uuidB).body := by
  have h := c10_theorem exCommentDb tokA tsB uuidB [("message", JsonVal.str "x")] (by decide)
  exact ⟨(h.1 "imdbID" (by decide) (by decide)).1,
    (h.1 "imdbID" (by decide) (by decide)).2,
    (h.1 "name" (by decide) (by decide)).2,
    (h.2 "x" rfl (by decide)).2⟩
